import Mathlib

/-!
Verification of the anime-transcoding pipeline's job-submission core:
the idempotency engine (`idempotency.py`), the ABR ladder builder
(`abr_ladder.py`) and the MediaConvert job builder (`job_builder.py`),
shallowly embedded in Lean 4.  Python dicts are modelled as insertion-ordered
association lists, fallible code returns `Except`, and the DynamoDB-backed
reservation store is modelled as explicit state with an interleaving
semantics for concurrent invocations.
-/

namespace Anime

/-! ## Generic helpers -/

/-- Association-list lookup returns `none` when no pair carries the key. -/
theorem lookup_eq_none_of_all_ne {β : Type} (m : List (String × β)) (k : String)
    (h : ∀ p ∈ m, p.1 ≠ k) : m.lookup k = none := by
  induction m with
  | nil => rfl
  | cons p rest ih =>
    have hp : p.1 ≠ k := h p (List.mem_cons_self p rest)
    have hbeq : (k == p.1) = false := beq_false_of_ne (Ne.symm hp)
    simp only [List.lookup, hbeq]
    exact ih (fun q hq => h q (List.mem_cons_of_mem p hq))

/-- Python dict assignment `d[k] = v`: replaces the value in place when the
key is present (keeping insertion order), appends otherwise. -/
def dictInsert {β : Type} (k : String) (v : β) (d : List (String × β)) :
    List (String × β) :=
  if d.any (fun p => p.1 = k) then
    d.map (fun p => if p.1 = k then (k, v) else p)
  else
    d ++ [(k, v)]

/-- Effectful map over `Except`, mirroring a Python list comprehension whose
body may raise: stops at the first error, otherwise collects all results. -/
def mapE {ε α β : Type} (f : α → Except ε β) : List α → Except ε (List β)
  | [] => .ok []
  | a :: as =>
    match f a with
    | .error e => .error e
    | .ok b =>
      match mapE f as with
      | .error e => .error e
      | .ok bs => .ok (b :: bs)

theorem mapE_ok_iff_forall₂ {ε α β : Type} (f : α → Except ε β) :
    ∀ (l : List α) (bs : List β),
      mapE f l = .ok bs ↔ List.Forall₂ (fun a b => f a = .ok b) l bs := by
  intro l
  induction l with
  | nil =>
    intro bs
    constructor
    · intro h
      cases bs with
      | nil => exact List.Forall₂.nil
      | cons b bs' => simp [mapE] at h
    · intro h; cases h; rfl
  | cons a as ih =>
    intro bs
    constructor
    · intro h
      cases hf : f a with
      | error e => simp [mapE, hf] at h
      | ok b =>
        cases hr : mapE f as with
        | error e => simp [mapE, hf, hr] at h
        | ok bs' =>
          simp [mapE, hf, hr] at h
          subst h
          exact List.Forall₂.cons hf ((ih bs').mp hr)
    · intro h
      cases h with
      | cons hf hrest =>
        simp [mapE, hf, (ih _).mpr hrest]

theorem mapE_ok_length {ε α β : Type} (f : α → Except ε β) (l : List α)
    (bs : List β) (h : mapE f l = .ok bs) : bs.length = l.length := by
  have := (mapE_ok_iff_forall₂ f l bs).mp h
  exact (List.Forall₂.length_eq this).symm

theorem mapE_ok_mem {ε α β : Type} (f : α → Except ε β) (l : List α)
    (bs : List β) (h : mapE f l = .ok bs) :
    ∀ b ∈ bs, ∃ a ∈ l, f a = .ok b := by
  have h2 := (mapE_ok_iff_forall₂ f l bs).mp h
  induction h2 with
  | nil => intro b hb; cases hb
  | cons hf _ ih =>
    intro b hb
    cases hb with
    | head => exact ⟨_, List.mem_cons_self _ _, hf⟩
    | tail _ hb' =>
      obtain ⟨a, ha, hfa⟩ := ih (by rw [mapE_ok_iff_forall₂]; assumption) b hb'
      exact ⟨a, List.mem_cons_of_mem _ ha, hfa⟩

/-- The `mapE` of a total function never fails. -/
theorem mapE_ok_of_total {ε α β : Type} (f : α → Except ε β)
    (g : α → β) (hf : ∀ a, f a = .ok (g a)) (l : List α) :
    mapE f l = .ok (l.map g) := by
  induction l with
  | nil => rfl
  | cons a as ih => simp [mapE, hf a, ih]

/-- Python's `str(...)` applied to a list of strings, e.g. `['en', 'ja']`. -/
def pyListStr (xs : List String) : String :=
  "[" ++ String.intercalate ", " (xs.map (fun s => "'" ++ s ++ "'")) ++ "]"

/-- Python's `str.split(sep)` for a one-character separator, on the
character list. -/
def splitChar (sep : Char) : List Char → List (List Char)
  | [] => [[]]
  | c :: cs =>
    match splitChar sep cs with
    | [] => [[]]
    | h :: t => if c = sep then [] :: h :: t else (c :: h) :: t

/-- Python's `str.split(sep)` for a one-character separator. -/
def pySplit (sep : Char) (s : String) : List String :=
  (splitChar sep s.data).map String.mk

/-- Python's `int(s)` on a digit string (`none` on anything else). -/
def digitsToNat? (cs : List Char) : Option Nat :=
  if cs ≠ [] ∧ cs.all (fun c => c.isDigit) then
    some (cs.foldl (fun acc c => acc * 10 + (c.toNat - 48)) 0)
  else none

/-- Python's `str.lower()` (ASCII case folding suffices for every string the
pipeline lowercases). -/
def pyLower (s : String) : String :=
  String.mk (s.data.map Char.toLower)

/-- Python's `<=` on strings: lexicographic by code point, on the character
lists. -/
def charsLe : List Char → List Char → Bool
  | [], _ => true
  | _ :: _, [] => false
  | a :: as, b :: bs => if a = b then charsLe as bs else decide (a < b)

/-- Python's `<=` on strings: lexicographic by code point. -/
def pyStrLe (a b : String) : Bool :=
  charsLe a.data b.data

theorem charsLe_total :
    ∀ as bs : List Char, charsLe as bs = true ∨ charsLe bs as = true := by
  intro as
  induction as with
  | nil => intro bs; left; rfl
  | cons a as ih =>
    intro bs
    cases bs with
    | nil => right; rfl
    | cons b bs' =>
      by_cases hab : a = b
      · subst hab
        simp only [charsLe, if_pos rfl]
        exact ih bs'
      · rcases lt_or_gt_of_ne hab with h | h
        · left; simp [charsLe, hab, h]
        · right; simp [charsLe, Ne.symm hab, h]

theorem charsLe_trans :
    ∀ as bs cs : List Char, charsLe as bs = true → charsLe bs cs = true →
      charsLe as cs = true := by
  intro as
  induction as with
  | nil => intro bs cs _ _; rfl
  | cons a as ih =>
    intro bs cs h1 h2
    cases bs with
    | nil => simp [charsLe] at h1
    | cons b bs' =>
      cases cs with
      | nil => simp [charsLe] at h2
      | cons c cs' =>
        by_cases hab : a = b <;> by_cases hbc : b = c
        · subst hab; subst hbc
          simp only [charsLe, if_pos rfl] at h1 h2 ⊢
          exact ih bs' cs' h1 h2
        · subst hab
          simp only [charsLe, if_pos rfl, if_neg hbc] at h2 ⊢
          exact h2
        · subst hbc
          simp only [charsLe, if_pos rfl, if_neg hab] at h1 ⊢
          exact h1
        · simp only [charsLe, if_neg hab, if_neg hbc, decide_eq_true_eq] at h1 h2
          have hac : a < c := lt_trans h1 h2
          simp [charsLe, ne_of_lt hac, hac]

/-! ## SHA-256 (hashlib.sha256, FIPS 180-4), over `Nat` with explicit mod 2^32 -/

def w32 (n : Nat) : Nat := n % 4294967296

def rotr32 (n x : Nat) : Nat := w32 ((x >>> n) ||| (x <<< (32 - n)))

def shaK : List Nat :=
  [1116352408, 1899447441, 3049323471, 3921009573, 961987163,
   1508970993, 2453635748, 2870763221, 3624381080, 310598401,
   607225278, 1426881987, 1925078388, 2162078206, 2614888103,
   3248222580, 3835390401, 4022224774, 264347078, 604807628,
   770255983, 1249150122, 1555081692, 1996064986, 2554220882,
   2821834349, 2952996808, 3210313671, 3336571891, 3584528711,
   113926993, 338241895, 666307205, 773529912, 1294757372,
   1396182291, 1695183700, 1986661051, 2177026350, 2456956037,
   2730485921, 2820302411, 3259730800, 3345764771, 3516065817,
   3600352804, 4094571909, 275423344, 430227734, 506948616,
   659060556, 883997877, 958139571, 1322822218, 1537002063,
   1747873779, 1955562222, 2024104815, 2227730452, 2361852424,
   2428436474, 2756734187, 3204031479, 3329325298]

def shaH0 : List Nat :=
  [1779033703, 3144134277, 1013904242, 2773480762,
   1359893119, 2600822924, 528734635, 1541459225]

/-- UTF-8 encoding of one character (what Python's `str.encode()` does). -/
def utf8EncodeChar (c : Char) : List Nat :=
  let n := c.toNat
  if n < 0x80 then [n]
  else if n < 0x800 then [0xc0 + n / 64, 0x80 + n % 64]
  else if n < 0x10000 then
    [0xe0 + n / 4096, 0x80 + (n / 64) % 64, 0x80 + n % 64]
  else
    [0xf0 + n / 262144, 0x80 + (n / 4096) % 64, 0x80 + (n / 64) % 64,
     0x80 + n % 64]

def strBytes (s : String) : List Nat :=
  (s.data.map utf8EncodeChar).flatten

/-- SHA-256 padding: append 0x80, zeros to 56 mod 64, then the 64-bit
big-endian bit length. -/
def sha256Pad (msg : List Nat) : List Nat :=
  let len := msg.length
  let zeros := (119 - len % 64) % 64
  msg ++ [0x80] ++ List.replicate zeros 0 ++
    ((List.range 8).map (fun i => ((len * 8) >>> (8 * (7 - i))) % 256))

/-- Collect each 4-byte big-endian group into a 32-bit word. -/
def bytesToWords (bs : List Nat) : List Nat :=
  (bs.toChunks 4).map (fun c =>
    c.foldl (fun acc b => acc * 256 + b) 0)

/-- Extend 16 message words to the 64-word schedule. -/
def sha256Schedule (w16 : List Nat) : List Nat :=
  (List.range 48).foldl
    (fun w _ =>
      let i := w.length
      let x15 := w.getD (i - 15) 0
      let x2 := w.getD (i - 2) 0
      let s0 := (rotr32 7 x15) ^^^ (rotr32 18 x15) ^^^ (x15 >>> 3)
      let s1 := (rotr32 17 x2) ^^^ (rotr32 19 x2) ^^^ (x2 >>> 10)
      w ++ [w32 (w.getD (i - 16) 0 + s0 + w.getD (i - 7) 0 + s1)])
    w16

/-- One compression round; the state is the 8-word vector [a,b,c,d,e,f,g,h]. -/
def sha256Round (st : List Nat) (kw : Nat × Nat) : List Nat :=
  match st with
  | [a, b, c, d, e, f, g, h] =>
    let s1 := (rotr32 6 e) ^^^ (rotr32 11 e) ^^^ (rotr32 25 e)
    let ch := (Nat.land e f) ^^^ (Nat.land (4294967295 - e) g)
    let t1 := w32 (h + s1 + ch + kw.1 + kw.2)
    let s0 := (rotr32 2 a) ^^^ (rotr32 13 a) ^^^ (rotr32 22 a)
    let maj := (Nat.land a b) ^^^ (Nat.land a c) ^^^ (Nat.land b c)
    let t2 := w32 (s0 + maj)
    [w32 (t1 + t2), a, b, c, w32 (d + t1), e, f, g]
  | other => other

/-- Process one 64-byte chunk against the running hash value. -/
def sha256Chunk (hv : List Nat) (chunk : List Nat) : List Nat :=
  let ws := sha256Schedule (bytesToWords chunk)
  let st := (shaK.zip ws).foldl (fun st kw => sha256Round st kw) hv
  (hv.zip st).map (fun p => w32 (p.1 + p.2))

def sha256Words (s : String) : List Nat :=
  ((sha256Pad (strBytes s)).toChunks 64).foldl sha256Chunk shaH0

def hexDigit (n : Nat) : Char :=
  if n < 10 then Char.ofNat (48 + n) else Char.ofNat (87 + n)

def toHex8 (n : Nat) : String :=
  String.mk ((List.range 8).map (fun i => hexDigit ((n >>> (4 * (7 - i))) % 16)))

/-- The `hashlib.sha256(s.encode()).hexdigest()`. -/
def sha256hex (s : String) : String :=
  String.join ((sha256Words s).map toHex8)

/-! ## Data model (`shared/models.py`), restricted to the fields the
job-submission core reads -/

/-- The `VideoCodec` enum. -/
inductive VideoCodec where
  | h264
  | h265
deriving DecidableEq

def VideoCodec.value : VideoCodec → String
  | .h264 => "h264"
  | .h265 => "h265"

/-- The `AudioLanguage` enum (ISO 639-1 codes). -/
inductive AudioLanguage where
  | ja | en | es | pt | fr | de | ko | zh | it | ru
deriving DecidableEq

def AudioLanguage.value : AudioLanguage → String
  | .ja => "ja" | .en => "en" | .es => "es" | .pt => "pt" | .fr => "fr"
  | .de => "de" | .ko => "ko" | .zh => "zh" | .it => "it" | .ru => "ru"

/-- The `SubtitleLanguage` enum (BCP 47 tags). -/
inductive SubtitleLanguage where
  | en | es419 | esES | ptBR | ptPT | fr | de | it | ar | ru
  | zhHans | zhHant | ko
deriving DecidableEq

def SubtitleLanguage.value : SubtitleLanguage → String
  | .en => "en" | .es419 => "es-419" | .esES => "es-ES" | .ptBR => "pt-BR"
  | .ptPT => "pt-PT" | .fr => "fr" | .de => "de" | .it => "it" | .ar => "ar"
  | .ru => "ru" | .zhHans => "zh-Hans" | .zhHant => "zh-Hant" | .ko => "ko"

/-- The `SubtitleFormat` enum. -/
inductive SubtitleFormat where
  | WebVTT | SRT | TTML
deriving DecidableEq

def SubtitleFormat.value : SubtitleFormat → String
  | .WebVTT => "WebVTT" | .SRT => "SRT" | .TTML => "TTML"

structure AudioTrack where
  language : AudioLanguage
  label : String
  is_default : Bool
  channels : Nat
  track_index : Nat
deriving DecidableEq

structure SubtitleTrack where
  language : SubtitleLanguage
  label : String
  file_path : String
  is_default : Bool
  is_forced : Bool
  format : SubtitleFormat
deriving DecidableEq

/-- The `MezzanineInfo`, restricted to the fields the core reads. -/
structure MezzanineInfo where
  file_path : String
  checksum_md5 : String
  file_size_bytes : Nat
  resolution_width : Nat
  resolution_height : Nat
deriving DecidableEq

/-- The `TranscodeManifest`, restricted to the fields the core reads. -/
structure TranscodeManifest where
  manifest_id : String
  mezzanine : MezzanineInfo
  audio_tracks : List AudioTrack
  subtitle_tracks : List SubtitleTrack
  priority : Nat
  callback_url : Option String
deriving DecidableEq

/-- The pydantic constraints on `TranscodeManifest` that matter to the core:
at least one audio track, exactly one marked default, and bounded priority. -/
def TranscodeManifest.pydantic_valid (m : TranscodeManifest) : Prop :=
  m.audio_tracks ≠ [] ∧
  (m.audio_tracks.filter (fun t => t.is_default)).length = 1 ∧
  m.priority ≤ 10

instance (m : TranscodeManifest) : Decidable m.pydantic_valid := by
  unfold TranscodeManifest.pydantic_valid; infer_instance

structure ABRVariant where
  resolution : String
  bitrate_kbps : Nat
  codec : VideoCodec
  profile : String
  level : String
deriving DecidableEq

/-- The `ABRVariant.width`: `int(self.resolution.split("x")[0])`. -/
def ABRVariant.width (v : ABRVariant) : Nat :=
  (digitsToNat? ((splitChar 'x' v.resolution.data).getD 0 [])).getD 0

/-- The `ABRVariant.height`: `int(self.resolution.split("x")[1])`. -/
def ABRVariant.height (v : ABRVariant) : Nat :=
  (digitsToNat? ((splitChar 'x' v.resolution.data).getD 1 [])).getD 0

/-- The `ABRVariant.name`: `f"{self.codec.value}_{self.height}p"`. -/
def ABRVariant.name (v : ABRVariant) : String :=
  v.codec.value ++ "_" ++ toString v.height ++ "p"

structure TranscodeJobRequest where
  manifest : TranscodeManifest
  input_s3_uri : String
  output_s3_path : String
  abr_variants : List ABRVariant
  output_hls : Bool
  output_dash : Bool
deriving DecidableEq

/-! ## Idempotency engine (`job_submitter/idempotency.py`) -/

/-- The `key_components` list of `generate_idempotency_token`: manifest id,
content checksum, file size, sorted audio languages, profile version. -/
def idempotency_key_components (manifest : TranscodeManifest)
    (profile_version : String) : List String :=
  [manifest.manifest_id,
   manifest.mezzanine.checksum_md5,
   toString manifest.mezzanine.file_size_bytes,
   pyListStr ((manifest.audio_tracks.map (fun t => t.language.value)).mergeSort
     pyStrLe),
   profile_version]

/-- The `generate_idempotency_token`: SHA-256 hex digest of the key components
joined with `"|"`. -/
def generate_idempotency_token (manifest : TranscodeManifest)
    (profile_version : String) : String :=
  sha256hex
    (String.intercalate "|" (idempotency_key_components manifest profile_version))

/-- The DynamoDB record written by `reserve_job_slot` (the `output_prefix`
attribute of the source is named `output_path` here). -/
structure IdempotencyRecord where
  idempotency_token : String
  manifest_id : String
  status : String
  output_path : String
  created_at : String
  ttl : Nat
deriving DecidableEq

/-- Result dictionary of `reserve_job_slot`; `existing_job = none` models the
key being absent (the `reserved = true` branch returns no `existing_job`). -/
structure ReserveResult where
  reserved : Bool
  existing_job : Option IdempotencyRecord
deriving DecidableEq

/-- Outcome of the DynamoDB conditional `put_item` as seen by the caller:
success, a `ClientError` with its error code, or any other exception. -/
inductive PutOutcome where
  | ok
  | clientError (code : String)
  | otherError (msg : String)
deriving DecidableEq

/-- Exceptions `reserve_job_slot` can let escape. -/
inductive PyExc where
  | clientError (code : String)
  | idempotencyError (msg : String)
deriving DecidableEq

/-- The `check_idempotency`: a strongly-consistent `get_item` whose outcome is the
argument; any store failure is swallowed and treated as "no record". -/
def check_idempotency
    (readResult : Except String (Option IdempotencyRecord)) :
    Option IdempotencyRecord :=
  match readResult with
  | .ok item => item
  | .error _ => none

/-- The `reserve_job_slot`, with the conditional-put outcome and the follow-up
read outcome passed explicitly.  A `ConditionalCheckFailedException` client
error means the record already exists: the existing record is fetched via
`check_idempotency` and returned with `reserved = false`.  Any other
`ClientError` is re-raised as-is (the bare `raise`); any non-`ClientError`
exception is wrapped in an `IdempotencyError`. -/
def reserve_job_slot (putResult : PutOutcome)
    (readResult : Except String (Option IdempotencyRecord)) :
    Except PyExc ReserveResult :=
  match putResult with
  | .ok => .ok { reserved := true, existing_job := none }
  | .clientError code =>
    if code = "ConditionalCheckFailedException" then
      .ok { reserved := false, existing_job := check_idempotency readResult }
    else
      .error (.clientError code)
  | .otherError msg =>
    .error (.idempotencyError ("Failed to reserve job slot: " ++ msg))

/-! ### Concurrent invocations of `reserve_job_slot`

Each invocation performs two atomic store operations: the conditional
`put_item` (which succeeds iff the token is absent) and, on conditional
failure, the strongly-consistent `get_item` of `check_idempotency`.  N
invocations with the same token interleave arbitrarily; the store state for
that token is `Option IdempotencyRecord`. -/

/-- The per-invocation data that varies between racing invocations
(`manifest_id`, `output_prefix` argument, wall-clock timestamp, TTL). -/
structure ReserveInput where
  manifest_id : String
  output_path : String
  created_at : String
  ttl : Nat
deriving DecidableEq

/-- The `PENDING` item `reserve_job_slot` writes on a successful conditional
put. -/
def mkPendingRecord (token : String) (inp : ReserveInput) : IdempotencyRecord :=
  { idempotency_token := token
    manifest_id := inp.manifest_id
    status := "PENDING"
    output_path := inp.output_path
    created_at := inp.created_at
    ttl := inp.ttl }

/-- Control point of one invocation: about to issue the conditional put,
about to issue the follow-up read after losing the put, or finished. -/
inductive Phase where
  | putting
  | fetching
  | finished (result : ReserveResult)
deriving DecidableEq

structure SysState where
  store : Option IdempotencyRecord
  procs : List (ReserveInput × Phase)
deriving DecidableEq

def initState (inputs : List ReserveInput) : SysState :=
  { store := none, procs := inputs.map (fun inp => (inp, Phase.putting)) }

/-- Fire the next atomic store operation of invocation `i` (no-op if `i` is
out of range or already finished).  This is `reserve_job_slot` with the put
outcome determined by the store ("only succeeds if item doesn't exist") and
the read returning the current store content (ConsistentRead). -/
def stepProc (token : String) (s : SysState) (i : Nat) : SysState :=
  match s.procs[i]? with
  | none => s
  | some (inp, Phase.putting) =>
    match s.store with
    | none =>
      { store := some (mkPendingRecord token inp)
        procs := s.procs.set i
          (inp, Phase.finished { reserved := true, existing_job := none }) }
    | some _ => { s with procs := s.procs.set i (inp, Phase.fetching) }
  | some (inp, Phase.fetching) =>
    { s with
      procs := s.procs.set i
        (inp, Phase.finished { reserved := false, existing_job := s.store }) }
  | some (_, Phase.finished _) => s

/-- Run a schedule (an arbitrary interleaving of the invocations' store
operations). -/
def runSched (token : String) (s : SysState) (sched : List Nat) : SysState :=
  sched.foldl (stepProc token) s

def Phase.isFinished : Phase → Bool
  | .finished _ => true
  | _ => false

/-- The result an invocation has reported, if it is finished. -/
def phaseResult? (p : ReserveInput × Phase) : Option ReserveResult :=
  match p.2 with
  | Phase.finished r => some r
  | _ => none

/-- The results reported by the finished invocations. -/
def finishedResults (s : SysState) : List ReserveResult :=
  s.procs.filterMap phaseResult?

/-- The result reported by the winning invocation. -/
def winnerResult : ReserveResult :=
  { reserved := true, existing_job := none }

/-- The result reported by an invocation that lost the race to the record
`r`. -/
def loserResult (r : IdempotencyRecord) : ReserveResult :=
  { reserved := false, existing_job := some r }

/-! ## ABR ladder (`job_submitter/abr_ladder.py`) -/

/-- The fixed H.264 policy table. -/
def ABR_LADDER_H264 : List ABRVariant :=
  [{ resolution := "1920x1080", bitrate_kbps := 6000, codec := .h264,
     profile := "high", level := "4.2" },
   { resolution := "1280x720", bitrate_kbps := 3500, codec := .h264,
     profile := "high", level := "4.0" },
   { resolution := "854x480", bitrate_kbps := 1800, codec := .h264,
     profile := "main", level := "3.1" },
   { resolution := "640x360", bitrate_kbps := 800, codec := .h264,
     profile := "main", level := "3.0" }]

/-- The fixed H.265 policy table. -/
def ABR_LADDER_H265 : List ABRVariant :=
  [{ resolution := "1920x1080", bitrate_kbps := 4500, codec := .h265,
     profile := "main", level := "4.0" },
   { resolution := "1280x720", bitrate_kbps := 2500, codec := .h265,
     profile := "main", level := "4.0" }]

/-- Python's `variants.sort(key=lambda v: (-v.height, v.codec.value))` orders
by the ascending lexicographic order on `(-height, codec.value)`. -/
def ladder_le (a b : ABRVariant) : Bool :=
  decide (b.height < a.height ∨
    (a.height = b.height ∧ pyStrLe a.codec.value b.codec.value = true))

/-- The `variants` local of `get_abr_ladder` before sorting: each table
filtered by `height ≤ source_height`, H.265 only when enabled.
(`source_width` is accepted and ignored, exactly as in the source.) -/
def ladder_candidates (source_height : Nat) (enable_h265 : Bool) :
    List ABRVariant :=
  ABR_LADDER_H264.filter (fun v => decide (v.height ≤ source_height)) ++
    (if enable_h265 then
      ABR_LADDER_H265.filter (fun v => decide (v.height ≤ source_height))
    else [])

/-- The `get_abr_ladder`: the filtered candidates sorted by
`(-height, codec.value)`. -/
def get_abr_ladder (source_width source_height : Nat) (enable_h265 : Bool) :
    List ABRVariant :=
  let _ := source_width
  (ladder_candidates source_height enable_h265).mergeSort ladder_le

/-- The `_format_h264_profile`'s `profile_map`. -/
def h264_profile_map : List (String × String) :=
  [("baseline", "BASELINE"), ("main", "MAIN"), ("high", "HIGH"),
   ("high_10", "HIGH_10BIT"), ("high_422", "HIGH_422"),
   ("high_444", "HIGH_444_PREDICTIVE")]

/-- The `_format_h264_profile`: `profile_map.get(profile.lower(), "HIGH")`. -/
def _format_h264_profile (profile : String) : String :=
  (h264_profile_map.lookup (pyLower profile)).getD "HIGH"

/-- The `_format_h265_profile`'s `profile_map`. -/
def h265_profile_map : List (String × String) :=
  [("main", "MAIN_MAIN"), ("main10", "MAIN10_MAIN"), ("main_10", "MAIN10_MAIN")]

/-- The `_format_h265_profile`: `profile_map.get(profile.lower(), "MAIN_MAIN")`. -/
def _format_h265_profile (profile : String) : String :=
  (h265_profile_map.lookup (pyLower profile)).getD "MAIN_MAIN"

/-- The fields of `calculate_qvbr_settings` output that the claims observe:
the codec discriminator, the profile string and the bitrate caps.  The
`1.5 * 1000` float product is exact for the integral kbps values in range. -/
structure CodecSettings where
  codec : String
  codecProfile : String
  maxAverageBitrate : Nat
  maxBitrate : Nat
deriving DecidableEq

/-- The `calculate_qvbr_settings`, total because `VideoCodec` has exactly the two
supported constructors (the `raise ValueError` arm is unreachable). -/
def calculate_qvbr_settings (variant : ABRVariant) : CodecSettings :=
  let max_bitrate := variant.bitrate_kbps * 1500
  match variant.codec with
  | .h264 =>
    { codec := "H_264"
      codecProfile := _format_h264_profile variant.profile
      maxAverageBitrate := variant.bitrate_kbps * 1000
      maxBitrate := max_bitrate }
  | .h265 =>
    { codec := "H_265"
      codecProfile := _format_h265_profile variant.profile
      maxAverageBitrate := variant.bitrate_kbps * 1000
      maxBitrate := max_bitrate }

/-- The `get_audio_settings`: AAC, CBR, coding mode picked from channel count. -/
structure AudioCodecSettings where
  codec : String
  bitrate : Nat
  codingMode : String
deriving DecidableEq

def get_audio_settings (channels : Nat) (bitrate_kbps : Nat) :
    AudioCodecSettings :=
  { codec := "AAC"
    bitrate := bitrate_kbps * 1000
    codingMode := if channels ≤ 2 then "CODING_MODE_2_0" else "CODING_MODE_5_1" }

/-! ## MediaConvert job builder (`job_submitter/job_builder.py`) -/

/-- ISO 639-1 (2-letter) to ISO 639-2/T (3-letter) mapping for MediaConvert. -/
def ISO_639_1_TO_639_2 : List (String × String) :=
  [("en", "ENG"), ("ja", "JPN"), ("es", "SPA"), ("fr", "FRA"), ("de", "DEU"),
   ("it", "ITA"), ("pt", "POR"), ("ru", "RUS"), ("zh", "ZHO"), ("ko", "KOR"),
   ("ar", "ARA"), ("hi", "HIN"), ("th", "THA"), ("vi", "VIE"), ("id", "IND"),
   ("ms", "MSA"), ("tl", "TGL"), ("pl", "POL"), ("nl", "NLD"), ("tr", "TUR"),
   ("sv", "SWE"), ("da", "DAN"), ("no", "NOR"), ("fi", "FIN"), ("cs", "CES"),
   ("hu", "HUN"), ("ro", "RON"), ("el", "ELL"), ("he", "HEB"), ("uk", "UKR")]

/-- The base code `iso_639_1.lower().split("-")[0]` (handles "en-US"). -/
def isoBaseCode (iso_639_1 : String) : String :=
  String.mk ((splitChar '-' (pyLower iso_639_1).data).getD 0 [])

/-- The `_get_iso_639_2_code`: table lookup of the base code; raises `ValueError`
naming the offending value when the code is unsupported. -/
def _get_iso_639_2_code (iso_639_1 : String) : Except String String :=
  match ISO_639_1_TO_639_2.lookup (isoBaseCode iso_639_1) with
  | some code3 => .ok code3
  | none =>
    .error ("Unsupported language code '" ++ iso_639_1 ++
      "'. Supported codes: " ++
      String.intercalate ", "
        ((ISO_639_1_TO_639_2.map Prod.fst).mergeSort pyStrLe))

structure AudioSelector where
  defaultSelection : String
  selectorType : String
  tracks : List Nat
deriving DecidableEq

structure CaptionSelector where
  sourceType : String
  sourceFile : String
deriving DecidableEq

/-- The input descriptor; an empty `captionSelectors` list models the
`CaptionSelectors` key being omitted. -/
structure InputConfig where
  fileInput : String
  audioSelectors : List (String × AudioSelector)
  captionSelectors : List (String × CaptionSelector)
deriving DecidableEq

structure VideoDescription where
  width : Nat
  height : Nat
  codecSettings : CodecSettings
deriving DecidableEq

structure AudioDescription where
  audioSourceName : String
  languageCode : String
  codecSettings : AudioCodecSettings
  streamName : Option String
deriving DecidableEq

structure CaptionDescription where
  captionSelectorName : String
  destinationType : String
  languageCode : String
  languageDescription : String
deriving DecidableEq

/-- One entry of the `Outputs` array; absent dict keys are modelled by
`none` / `[]`. -/
structure Output where
  nameModifier : String
  container : String
  videoDescription : Option VideoDescription
  audioDescriptions : List AudioDescription
  captionDescriptions : List CaptionDescription
deriving DecidableEq

structure CaptionLanguageMapping where
  languageCode : String
  languageDescription : String
  captionChannel : Nat
deriving DecidableEq

structure OutputGroup where
  name : String
  settingsType : String
  destination : String
  captionLanguageSetting : Option String
  captionLanguageMappings : List CaptionLanguageMapping
  outputs : List Output
deriving DecidableEq

structure JobSettings where
  inputs : List InputConfig
  outputGroups : List OutputGroup
deriving DecidableEq

/-- The `s.rsplit("/", 1)[0]`: everything before the last slash (the whole string
when there is none). -/
def rsplitBase (s : String) : String :=
  let parts := pySplit '/' s
  if parts.length ≤ 1 then s else String.intercalate "/" parts.dropLast

/-- The `_build_input`'s `format_to_source_type` dict with default `"WEBVTT"`. -/
def formatToSourceType : List (String × String) :=
  [("SCC", "SCC"), ("TTML", "TTML"), ("WebVTT", "WEBVTT"), ("SRT", "SRT")]

/-- The `_build_input`: one audio selector per track keyed
`Audio_{language}` (a Python dict, so a repeated key overwrites), one caption
selector per subtitle track keyed `Caption_{language}`. -/
def _build_input (request : TranscodeJobRequest) : InputConfig :=
  let audio_selectors :=
    request.manifest.audio_tracks.foldl
      (fun d track =>
        dictInsert ("Audio_" ++ track.language.value)
          { defaultSelection := if track.is_default then "DEFAULT" else "NOT_DEFAULT"
            selectorType := "TRACK"
            tracks := [track.track_index] } d)
      []
  let caption_selectors :=
    request.manifest.subtitle_tracks.foldl
      (fun d track =>
        dictInsert ("Caption_" ++ track.language.value)
          { sourceType := (formatToSourceType.lookup track.format.value).getD "WEBVTT"
            sourceFile := rsplitBase request.input_s3_uri ++ "/" ++ track.file_path } d)
      []
  { fileInput := request.input_s3_uri
    audioSelectors := audio_selectors
    captionSelectors := caption_selectors }

/-- The audio description attached to every HLS video output, one per
language track. -/
def hlsVideoAudioDescription (track : AudioTrack) :
    Except String AudioDescription :=
  match _get_iso_639_2_code track.language.value with
  | .error e => .error e
  | .ok code =>
    .ok { audioSourceName := "Audio_" ++ track.language.value
          languageCode := code
          codecSettings := get_audio_settings track.channels 128
          streamName := none }

/-- The `_build_hls_video_output`. -/
def _build_hls_video_output (request : TranscodeJobRequest)
    (variant : ABRVariant) : Except String Output :=
  match mapE hlsVideoAudioDescription request.manifest.audio_tracks with
  | .error e => .error e
  | .ok auds =>
    .ok { nameModifier := "_" ++ variant.name
          container := "M3U8"
          videoDescription := some
            { width := variant.width
              height := variant.height
              codecSettings := calculate_qvbr_settings variant }
          audioDescriptions := auds
          captionDescriptions := [] }

/-- The `_build_hls_audio_output`. -/
def _build_hls_audio_output (track : AudioTrack) : Except String Output :=
  match _get_iso_639_2_code track.language.value with
  | .error e => .error e
  | .ok code =>
    .ok { nameModifier := "_audio_" ++ track.language.value
          container := "M3U8"
          videoDescription := none
          audioDescriptions :=
            [{ audioSourceName := "Audio_" ++ track.language.value
               languageCode := code
               codecSettings := get_audio_settings track.channels 128
               streamName := some track.label }]
          captionDescriptions := [] }

/-- The `_build_hls_caption_output`. -/
def _build_hls_caption_output (track : SubtitleTrack) : Except String Output :=
  match _get_iso_639_2_code track.language.value with
  | .error e => .error e
  | .ok code =>
    .ok { nameModifier := "_caption_" ++ track.language.value
          container := "RAW"
          videoDescription := none
          audioDescriptions := []
          captionDescriptions :=
            [{ captionSelectorName := "Caption_" ++ track.language.value
               destinationType := "WEBVTT"
               languageCode := code
               languageDescription := track.label }] }

/-- One `CaptionLanguageMappings` entry (of index and track). -/
def hlsCaptionMapping (it : Nat × SubtitleTrack) :
    Except String CaptionLanguageMapping :=
  match _get_iso_639_2_code it.2.language.value with
  | .error e => .error e
  | .ok code =>
    .ok { languageCode := code
          languageDescription := it.2.label
          captionChannel := it.1 + 1 }

/-- The `_build_hls_output_group`: video outputs for the given variants, then
audio-only outputs per language track, then caption outputs per subtitle
track; caption language mappings only when subtitles exist. -/
def _build_hls_output_group (request : TranscodeJobRequest)
    (variants : List ABRVariant) : Except String OutputGroup :=
  match mapE (_build_hls_video_output request) variants with
  | .error e => .error e
  | .ok videoOutputs =>
    match mapE _build_hls_audio_output request.manifest.audio_tracks with
    | .error e => .error e
    | .ok audioOutputs =>
      match mapE _build_hls_caption_output request.manifest.subtitle_tracks with
      | .error e => .error e
      | .ok captionOutputs =>
        match (if request.manifest.subtitle_tracks.isEmpty then .ok []
               else mapE hlsCaptionMapping request.manifest.subtitle_tracks.enum) with
        | .error e => .error e
        | .ok mappings =>
          .ok { name := "HLS"
                settingsType := "HLS_GROUP_SETTINGS"
                destination := request.output_s3_path ++ "/hls/"
                captionLanguageSetting :=
                  some (if request.manifest.subtitle_tracks.isEmpty
                        then "OMIT" else "INSERT")
                captionLanguageMappings := mappings
                outputs := videoOutputs ++ audioOutputs ++ captionOutputs }

/-- The `_build_dash_video_output` (no audio descriptions, no language lookup). -/
def _build_dash_video_output (variant : ABRVariant) : Output :=
  { nameModifier := "_" ++ variant.name
    container := "MPD"
    videoDescription := some
      { width := variant.width
        height := variant.height
        codecSettings := calculate_qvbr_settings variant }
    audioDescriptions := []
    captionDescriptions := [] }

/-- The `_build_dash_audio_output`. -/
def _build_dash_audio_output (track : AudioTrack) : Except String Output :=
  match _get_iso_639_2_code track.language.value with
  | .error e => .error e
  | .ok code =>
    .ok { nameModifier := "_audio_" ++ track.language.value
          container := "MPD"
          videoDescription := none
          audioDescriptions :=
            [{ audioSourceName := "Audio_" ++ track.language.value
               languageCode := code
               codecSettings := get_audio_settings track.channels 128
               streamName := some track.label }]
          captionDescriptions := [] }

/-- The `_build_dash_output_group`: video outputs per variant and audio outputs
per language track — the source creates no caption outputs here. -/
def _build_dash_output_group (request : TranscodeJobRequest)
    (variants : List ABRVariant) : Except String OutputGroup :=
  match mapE _build_dash_audio_output request.manifest.audio_tracks with
  | .error e => .error e
  | .ok audioOutputs =>
    .ok { name := "DASH"
          settingsType := "DASH_ISO_GROUP_SETTINGS"
          destination := request.output_s3_path ++ "/dash/"
          captionLanguageSetting := none
          captionLanguageMappings := []
          outputs := variants.map _build_dash_video_output ++ audioOutputs }

/-- The H.264 subset of the requested variants. -/
def h264Variants (request : TranscodeJobRequest) : List ABRVariant :=
  request.abr_variants.filter (fun v => decide (v.codec = .h264))

/-- The H.265 subset of the requested variants. -/
def h265Variants (request : TranscodeJobRequest) : List ABRVariant :=
  request.abr_variants.filter (fun v => decide (v.codec = .h265))

/-- The `build_mediaconvert_job`: HLS group from the H.264 subset (only when
requested and non-empty), DASH group from the full variant set (only when
requested and non-empty); a group that would be empty is omitted. -/
def build_mediaconvert_job (request : TranscodeJobRequest) :
    Except String JobSettings :=
  let hlsPart : Except String (List OutputGroup) :=
    if request.output_hls && !(h264Variants request).isEmpty then
      match _build_hls_output_group request (h264Variants request) with
      | .error e => .error e
      | .ok g => .ok [g]
    else .ok []
  let dashPart : Except String (List OutputGroup) :=
    if request.output_dash &&
        !(h264Variants request ++ h265Variants request).isEmpty then
      match _build_dash_output_group request
          (h264Variants request ++ h265Variants request) with
      | .error e => .error e
      | .ok g => .ok [g]
    else .ok []
  match hlsPart with
  | .error e => .error e
  | .ok hlsGroups =>
    match dashPart with
    | .error e => .error e
    | .ok dashGroups =>
      .ok { inputs := [_build_input request]
            outputGroups := hlsGroups ++ dashGroups }

/-! ## Idempotency-token facts (auxiliary development for the token claims) -/

/-- The token reads none of `priority` and `callback_url`, so changing them
cannot change the token. -/
theorem token_stable_under_priority_and_callback (m : TranscodeManifest)
    (p : Nat) (c : Option String) (pv : String) :
    generate_idempotency_token { m with priority := p, callback_url := c } pv =
      generate_idempotency_token m pv := rfl

/-- Cancel a common prefix and a common suffix of a string equation. -/
theorem append_middle_cancel (p x y s : String)
    (h : p ++ x ++ s = p ++ y ++ s) : x = y := by
  apply String.ext
  have hd := congrArg String.data h
  simp only [String.data_append, List.append_assoc] at hd
  exact List.append_cancel_right (List.append_cancel_left hd)

/-- Changing `checksum_md5` (all other fields fixed) changes the string that
`generate_idempotency_token` feeds to SHA-256. -/
theorem token_key_changes_with_checksum (m : TranscodeManifest)
    (c' : String) (pv : String) (h : c' ≠ m.mezzanine.checksum_md5) :
    String.intercalate "|" (idempotency_key_components
        { m with mezzanine := { m.mezzanine with checksum_md5 := c' } } pv) ≠
      String.intercalate "|" (idempotency_key_components m pv) := by
  intro heq
  apply h
  have heq2 :
      m.manifest_id ++ "|" ++ c' ++
          ("|" ++ toString m.mezzanine.file_size_bytes ++ "|" ++
            pyListStr ((m.audio_tracks.map (fun t => t.language.value)).mergeSort
              pyStrLe) ++ "|" ++ pv) =
        m.manifest_id ++ "|" ++ m.mezzanine.checksum_md5 ++
          ("|" ++ toString m.mezzanine.file_size_bytes ++ "|" ++
            pyListStr ((m.audio_tracks.map (fun t => t.language.value)).mergeSort
              pyStrLe) ++ "|" ++ pv) := by
    have hx : String.intercalate "|" (idempotency_key_components
        { m with mezzanine := { m.mezzanine with checksum_md5 := c' } } pv) =
        m.manifest_id ++ "|" ++ c' ++ "|" ++
          toString m.mezzanine.file_size_bytes ++ "|" ++
          pyListStr ((m.audio_tracks.map (fun t => t.language.value)).mergeSort
            pyStrLe) ++ "|" ++ pv := rfl
    have hy : String.intercalate "|" (idempotency_key_components m pv) =
        m.manifest_id ++ "|" ++ m.mezzanine.checksum_md5 ++ "|" ++
          toString m.mezzanine.file_size_bytes ++ "|" ++
          pyListStr ((m.audio_tracks.map (fun t => t.language.value)).mergeSort
            pyStrLe) ++ "|" ++ pv := rfl
    rw [hx, hy] at heq
    apply String.ext
    have hd := congrArg String.data heq
    simp only [String.data_append, List.append_assoc] at hd ⊢
    exact hd
  exact append_middle_cancel (m.manifest_id ++ "|") c' m.mezzanine.checksum_md5 _
    heq2

/-- Changing `profile_version` (manifest fixed) changes the string that
`generate_idempotency_token` feeds to SHA-256. -/
theorem token_key_changes_with_profile_version (m : TranscodeManifest)
    (pv pv' : String) (h : pv' ≠ pv) :
    String.intercalate "|" (idempotency_key_components m pv') ≠
      String.intercalate "|" (idempotency_key_components m pv) := by
  intro heq
  apply h
  apply String.ext
  have hx : String.intercalate "|" (idempotency_key_components m pv') =
      m.manifest_id ++ "|" ++ m.mezzanine.checksum_md5 ++ "|" ++
        toString m.mezzanine.file_size_bytes ++ "|" ++
        pyListStr ((m.audio_tracks.map (fun t => t.language.value)).mergeSort
          pyStrLe) ++ "|" ++ pv' := rfl
  have hy : String.intercalate "|" (idempotency_key_components m pv) =
      m.manifest_id ++ "|" ++ m.mezzanine.checksum_md5 ++ "|" ++
        toString m.mezzanine.file_size_bytes ++ "|" ++
        pyListStr ((m.audio_tracks.map (fun t => t.language.value)).mergeSort
          pyStrLe) ++ "|" ++ pv := rfl
  rw [hx, hy] at heq
  have hd := congrArg String.data heq
  simp only [String.data_append, List.append_assoc] at hd
  exact List.append_cancel_left (List.append_cancel_left
    (List.append_cancel_left (List.append_cancel_left (List.append_cancel_left
      (List.append_cancel_left (List.append_cancel_left
        (List.append_cancel_left hd)))))))

/-! ## ABR ladder theorems -/

theorem codec_ABR_LADDER_H264 :
    ∀ v ∈ ABR_LADDER_H264, v.codec = VideoCodec.h264 := by decide

theorem codec_ABR_LADDER_H265 :
    ∀ v ∈ ABR_LADDER_H265, v.codec = VideoCodec.h265 := by decide

theorem mem_ladder_candidates (h : Nat) (e : Bool) (v : ABRVariant) :
    v ∈ ladder_candidates h e ↔
      (v ∈ ABR_LADDER_H264 ∧ v.height ≤ h) ∨
        (e = true ∧ v ∈ ABR_LADDER_H265 ∧ v.height ≤ h) := by
  unfold ladder_candidates
  cases e <;> simp [List.mem_filter, List.mem_append] <;> tauto

theorem mem_get_abr_ladder (w h : Nat) (e : Bool) (v : ABRVariant) :
    v ∈ get_abr_ladder w h e ↔ v ∈ ladder_candidates h e := by
  simp [get_abr_ladder, List.mem_mergeSort]

/-- C3: for positive source dimensions, the ladder contains a candidate
variant from the fixed policy tables iff its height does not exceed the
source height and its codec is H.264, or H.265 with H.265 enabled; in
particular every returned variant has height at most the source height. -/
theorem c3_ladder_membership (source_width source_height : Nat)
    (hw : 0 < source_width) (hh : 0 < source_height) (enable_h265 : Bool) :
    (∀ v : ABRVariant,
      v ∈ get_abr_ladder source_width source_height enable_h265 ↔
        ((v ∈ ABR_LADDER_H264 ∨ v ∈ ABR_LADDER_H265) ∧
          v.height ≤ source_height ∧
          (v.codec = VideoCodec.h264 ∨
            (v.codec = VideoCodec.h265 ∧ enable_h265 = true)))) ∧
    (∀ v ∈ get_abr_ladder source_width source_height enable_h265,
      v.height ≤ source_height) := by
  constructor
  · intro v
    rw [mem_get_abr_ladder, mem_ladder_candidates]
    constructor
    · rintro (⟨hA, hle⟩ | ⟨he, hB, hle⟩)
      · exact ⟨Or.inl hA, hle, Or.inl (codec_ABR_LADDER_H264 v hA)⟩
      · exact ⟨Or.inr hB, hle, Or.inr ⟨codec_ABR_LADDER_H265 v hB, he⟩⟩
    · rintro ⟨hA | hB, hle, hc⟩
      · exact Or.inl ⟨hA, hle⟩
      · have hc265 := codec_ABR_LADDER_H265 v hB
        rcases hc with hc264 | ⟨_, he⟩
        · rw [hc265] at hc264
          exact absurd hc264 (by decide)
        · exact Or.inr ⟨he, hB, hle⟩
  · intro v hv
    rw [mem_get_abr_ladder, mem_ladder_candidates] at hv
    rcases hv with ⟨_, hle⟩ | ⟨_, _, hle⟩ <;> exact hle

/-- Witness for C3 at a 1920x1080 source with H.265 enabled. -/
theorem c3_ladder_membership_witness :
    0 < 1920 ∧ 0 < 1080 ∧
      ((∀ v : ABRVariant,
        v ∈ get_abr_ladder 1920 1080 true ↔
          ((v ∈ ABR_LADDER_H264 ∨ v ∈ ABR_LADDER_H265) ∧ v.height ≤ 1080 ∧
            (v.codec = VideoCodec.h264 ∨
              (v.codec = VideoCodec.h265 ∧ true = true)))) ∧
      (∀ v ∈ get_abr_ladder 1920 1080 true, v.height ≤ 1080)) :=
  ⟨by decide, by decide,
    c3_ladder_membership 1920 1080 (by decide) (by decide) true⟩

theorem ladder_le_trans :
    ∀ a b c : ABRVariant, ladder_le a b = true → ladder_le b c = true →
      ladder_le a c = true := by
  intro a b c hab hbc
  simp only [ladder_le, decide_eq_true_eq] at hab hbc ⊢
  rcases hab with h1 | ⟨h1, h1v⟩ <;> rcases hbc with h2 | ⟨h2, h2v⟩
  · exact Or.inl (h2.trans h1)
  · left; omega
  · left; omega
  · exact Or.inr ⟨h1.trans h2, charsLe_trans _ _ _ h1v h2v⟩

theorem ladder_le_total :
    ∀ a b : ABRVariant, (ladder_le a b || ladder_le b a) = true := by
  intro a b
  simp only [ladder_le, Bool.or_eq_true, decide_eq_true_eq]
  rcases Nat.lt_trichotomy a.height b.height with h | h | h
  · exact Or.inr (Or.inl h)
  · rcases charsLe_total a.codec.value.data b.codec.value.data with hc | hc
    · exact Or.inl (Or.inr ⟨h, hc⟩)
    · exact Or.inr (Or.inr ⟨h.symm, hc⟩)
  · exact Or.inl (Or.inl h)

/-- The `(height, codec)` key of a variant, used to show the sort keys in
any candidate list are pairwise distinct. -/
def variantKey (v : ABRVariant) : Nat × VideoCodec := (v.height, v.codec)

theorem candidates_keys_pairwise_ne (h : Nat) (e : Bool) :
    List.Pairwise (fun a b => variantKey a ≠ variantKey b)
      (ladder_candidates h e) := by
  have htab : List.Pairwise (fun a b => variantKey a ≠ variantKey b)
      (ABR_LADDER_H264 ++ ABR_LADDER_H265) := by decide
  have hsub : (ladder_candidates h e).Sublist
      (ABR_LADDER_H264 ++ ABR_LADDER_H265) := by
    unfold ladder_candidates
    cases e
    · simpa using List.Sublist.append (List.filter_sublist _)
        (List.nil_sublist _)
    · simpa using List.Sublist.append (List.filter_sublist _)
        (List.filter_sublist _)
  exact htab.sublist hsub

theorem ladder_strict_of_le_ne (a b : ABRVariant)
    (hle : ladder_le a b = true) (hne : variantKey a ≠ variantKey b) :
    b.height < a.height ∨
      (a.height = b.height ∧ a.codec = VideoCodec.h264 ∧
        b.codec = VideoCodec.h265) := by
  simp only [ladder_le, decide_eq_true_eq] at hle
  rcases hle with h | ⟨heq, hcv⟩
  · exact Or.inl h
  · right
    refine ⟨heq, ?_⟩
    have hcne : a.codec ≠ b.codec := by
      intro hc
      exact hne (by simp [variantKey, heq, hc])
    cases ca : a.codec <;> cases cb : b.codec
    · rw [ca, cb] at hcne; exact absurd rfl hcne
    · exact ⟨rfl, rfl⟩
    · rw [ca, cb] at hcv; exact absurd hcv (by decide)
    · rw [ca, cb] at hcne; exact absurd rfl hcne

/-- C4: the returned ladder is strictly ordered: height strictly descends,
and at equal height the H.264 variant precedes the H.265 variant. -/
theorem c4_ladder_ordering (source_width source_height : Nat)
    (enable_h265 : Bool) :
    List.Pairwise (fun a b : ABRVariant =>
      b.height < a.height ∨
        (a.height = b.height ∧ a.codec = VideoCodec.h264 ∧
          b.codec = VideoCodec.h265))
      (get_abr_ladder source_width source_height enable_h265) := by
  have hsorted := List.sorted_mergeSort ladder_le_trans ladder_le_total
    (ladder_candidates source_height enable_h265)
  have hkeys : List.Pairwise (fun a b => variantKey a ≠ variantKey b)
      ((ladder_candidates source_height enable_h265).mergeSort ladder_le) :=
    ((List.mergeSort_perm _ ladder_le).pairwise_iff
      (fun hxy h => hxy h.symm)).mpr
      (candidates_keys_pairwise_ne source_height enable_h265)
  have := (hsorted.and hkeys).imp
    (fun hab => ladder_strict_of_le_ne _ _ hab.1 hab.2)
  exact this

/-! ## Error-policy theorems (`check_idempotency` / `reserve_job_slot`) -/

/-- Discriminator used by the C9 counterexample: does the raised exception
have type `IdempotencyError`? -/
def resultRaisesIdempotencyError (r : Except PyExc ReserveResult) : Bool :=
  match r with
  | .error (.idempotencyError _) => true
  | _ => false

/-- C9 counterexample: a `ClientError` other than
`ConditionalCheckFailedException` (e.g. a throughput error during the
conditional insert) is re-raised as the original `ClientError`, not as an
`IdempotencyError`, contradicting the claim's "raises an IdempotencyError
for any reason other than the record already existing". -/
theorem c9_clienterror_counterexample :
    reserve_job_slot (.clientError "ProvisionedThroughputExceededException")
        (.ok none) =
      .error (.clientError "ProvisionedThroughputExceededException") ∧
    resultRaisesIdempotencyError
      (reserve_job_slot (.clientError "ProvisionedThroughputExceededException")
        (.ok none)) = false := by
  constructor <;> rfl

/-- C9 as amended: a store-read failure makes `check_idempotency` return
`none` (no exception escapes); a conditional-insert failure other than
"record already exists" never returns normally — a non-conditional
`ClientError` is re-raised as-is, and any other exception is wrapped in an
`IdempotencyError` — so the caller never assumes exclusivity without the
store's confirmation. -/
theorem c9_error_policy_amended :
    (∀ e : String,
      check_idempotency (.error e) = none) ∧
    (∀ (code : String) (readResult : Except String (Option IdempotencyRecord)),
      code ≠ "ConditionalCheckFailedException" →
      reserve_job_slot (.clientError code) readResult =
        .error (.clientError code)) ∧
    (∀ (msg : String) (readResult : Except String (Option IdempotencyRecord)),
      reserve_job_slot (.otherError msg) readResult =
        .error (.idempotencyError ("Failed to reserve job slot: " ++ msg))) := by
  refine ⟨fun e => rfl, fun code readResult hne => ?_, fun msg readResult => rfl⟩
  simp [reserve_job_slot, hne]

/-- Witness for the amended C9 at concrete outcomes. -/
theorem c9_error_policy_amended_witness :
    check_idempotency (.error "connection timeout") = none ∧
    reserve_job_slot (.clientError "ThrottlingException") (.ok none) =
      .error (.clientError "ThrottlingException") ∧
    reserve_job_slot (.otherError "socket closed") (.ok none) =
      .error (.idempotencyError "Failed to reserve job slot: socket closed") :=
  ⟨c9_error_policy_amended.1 "connection timeout",
   c9_error_policy_amended.2.1 "ThrottlingException" (.ok none) (by decide),
   c9_error_policy_amended.2.2 "socket closed" (.ok none)⟩

/-! ## Codec-profile formatting theorems -/

/-- C10: an unknown profile string (after lowercasing) maps to the default
`"HIGH"` / `"MAIN_MAIN"` without raising, in contrast to the fail-loudly
language-code translation. -/
theorem c10_profile_default (profile : String) :
    (pyLower profile ∉ h264_profile_map.map Prod.fst →
      _format_h264_profile profile = "HIGH") ∧
    (pyLower profile ∉ h265_profile_map.map Prod.fst →
      _format_h265_profile profile = "MAIN_MAIN") := by
  constructor
  · intro h
    have hnone : h264_profile_map.lookup (pyLower profile) = none :=
      lookup_eq_none_of_all_ne _ _
        (fun p hp he => h (he ▸ List.mem_map_of_mem Prod.fst hp))
    simp [_format_h264_profile, hnone]
  · intro h
    have hnone : h265_profile_map.lookup (pyLower profile) = none :=
      lookup_eq_none_of_all_ne _ _
        (fun p hp he => h (he ▸ List.mem_map_of_mem Prod.fst hp))
    simp [_format_h265_profile, hnone]

/-- Witness for C10 at the unknown profile string `"Ultra422"`. -/
theorem c10_profile_default_witness :
    _format_h264_profile "Ultra422" = "HIGH" ∧
    _format_h265_profile "Ultra422" = "MAIN_MAIN" :=
  ⟨(c10_profile_default "Ultra422").1 (by decide),
   (c10_profile_default "Ultra422").2 (by decide)⟩

/-! ## Exactly-once reservation under concurrency (C1) -/

theorem mem_of_getElem?' {α : Type} :
    ∀ (l : List α) (i : Nat) (a : α), l[i]? = some a → a ∈ l := by
  intro l
  induction l with
  | nil => intro i a h; simp at h
  | cons x xs ih =>
    intro i a h
    cases i with
    | zero =>
      simp only [List.getElem?_cons_zero, Option.some.injEq] at h
      exact h ▸ List.mem_cons_self x xs
    | succ n =>
      simp only [List.getElem?_cons_succ] at h
      exact List.mem_cons_of_mem x (ih n a h)

theorem filter_length_set_of_same {α : Type} (p : α → Bool) :
    ∀ (l : List α) (i : Nat) (a b : α), l[i]? = some a → p b = p a →
      ((l.set i b).filter p).length = (l.filter p).length := by
  intro l
  induction l with
  | nil => intro i a b h _; simp at h
  | cons x xs ih =>
    intro i a b hget hp
    cases i with
    | zero =>
      simp only [List.getElem?_cons_zero, Option.some.injEq] at hget
      subst hget
      simp only [List.set, List.filter_cons, hp]
      cases hpa : p x <;> simp [hpa]
    | succ n =>
      simp only [List.getElem?_cons_succ] at hget
      simp only [List.set, List.filter_cons]
      cases hpx : p x <;> simp [ih n a b hget hp]

theorem filter_length_set_new_winner {α : Type} (p : α → Bool) :
    ∀ (l : List α) (i : Nat) (a b : α), l[i]? = some a → p a = false →
      p b = true →
      ((l.set i b).filter p).length = (l.filter p).length + 1 := by
  intro l
  induction l with
  | nil => intro i a b h _ _; simp at h
  | cons x xs ih =>
    intro i a b hget hpa hpb
    cases i with
    | zero =>
      simp only [List.getElem?_cons_zero, Option.some.injEq] at hget
      subst hget
      simp [List.set, List.filter_cons, hpa, hpb]
    | succ n =>
      simp only [List.getElem?_cons_succ] at hget
      simp only [List.set, List.filter_cons]
      cases hpx : p x <;> simp [ih n a b hget hpa hpb, Nat.add_right_comm]

/-- Whether an invocation entry has finished reporting `reserved = true`. -/
def isWinnerEntry (p : ReserveInput × Phase) : Bool :=
  decide (p.2 = Phase.finished winnerResult)

/-- The race invariant: either nobody has touched the store yet and every
invocation is still about to put, or the store holds a single record `r`,
exactly one invocation has finished as the winner, and every other
invocation is still in flight or has finished as a loser carrying `r`. -/
def ReserveInv (s : SysState) : Prop :=
  (s.store = none ∧ ∀ p ∈ s.procs, p.2 = Phase.putting) ∨
  (∃ r : IdempotencyRecord, s.store = some r ∧
    (s.procs.filter isWinnerEntry).length = 1 ∧
    ∀ p ∈ s.procs, p.2 = Phase.putting ∨ p.2 = Phase.fetching ∨
      p.2 = Phase.finished winnerResult ∨ p.2 = Phase.finished (loserResult r))

theorem initState_inv (inputs : List ReserveInput) :
    ReserveInv (initState inputs) := by
  left
  refine ⟨rfl, ?_⟩
  intro p hp
  simp only [initState, List.mem_map] at hp
  obtain ⟨inp, _, rfl⟩ := hp
  rfl

theorem stepProc_preserves (token : String) (s : SysState) (i : Nat)
    (h : ReserveInv s) : ReserveInv (stepProc token s i) := by
  cases hg : s.procs[i]? with
  | none => simpa only [stepProc, hg] using h
  | some pr =>
    obtain ⟨inp, ph⟩ := pr
    have hmem : (inp, ph) ∈ s.procs := mem_of_getElem?' _ _ _ hg
    cases ph with
    | putting =>
      cases hst : s.store with
      | none =>
        rcases h with ⟨_, hall⟩ | ⟨r, hr, _, _⟩
        · right
          refine ⟨mkPendingRecord token inp, ?_, ?_, ?_⟩
          · simp only [stepProc, hg, hst]
          · simp only [stepProc, hg, hst]
            have hz : (s.procs.filter isWinnerEntry).length = 0 := by
              have : s.procs.filter isWinnerEntry = [] := by
                rw [List.filter_eq_nil]
                intro p hp
                simp [isWinnerEntry, hall p hp]
              simp [this]
            rw [filter_length_set_new_winner isWinnerEntry s.procs i
              (inp, Phase.putting) _ hg (by simp [isWinnerEntry])
              (by simp [isWinnerEntry, winnerResult]), hz]
          · simp only [stepProc, hg, hst]
            intro p hp
            rcases List.mem_or_eq_of_mem_set hp with hp' | rfl
            · exact Or.inl (hall p hp')
            · right; right; left
              simp [winnerResult]
        · rw [hst] at hr; cases hr
      | some r0 =>
        rcases h with ⟨hnone, _⟩ | ⟨r, hr, hcount, hall⟩
        · rw [hst] at hnone; cases hnone
        · right
          refine ⟨r, ?_, ?_, ?_⟩
          · simpa only [stepProc, hg, hst] using hr
          · simp only [stepProc, hg, hst]
            rw [filter_length_set_of_same isWinnerEntry s.procs i
              (inp, Phase.putting) _ hg (by simp [isWinnerEntry])]
            exact hcount
          · simp only [stepProc, hg, hst]
            intro p hp
            rcases List.mem_or_eq_of_mem_set hp with hp' | rfl
            · exact hall p hp'
            · exact Or.inr (Or.inl rfl)
    | fetching =>
      rcases h with ⟨_, hall⟩ | ⟨r, hr, hcount, hall⟩
      · exact absurd (hall _ hmem) (by simp)
      · right
        refine ⟨r, ?_, ?_, ?_⟩
        · simpa only [stepProc, hg] using hr
        · simp only [stepProc, hg]
          rw [filter_length_set_of_same isWinnerEntry s.procs i
            (inp, Phase.fetching) _ hg ?_]
          · exact hcount
          · simp only [isWinnerEntry]
            have : Phase.finished { reserved := false, existing_job := s.store } ≠
                Phase.finished winnerResult := by
              intro hcontra
              have := Phase.finished.inj hcontra
              simp [winnerResult] at this
            simp [this]
        · simp only [stepProc, hg]
          intro p hp
          rcases List.mem_or_eq_of_mem_set hp with hp' | rfl
          · exact hall p hp'
          · rw [hr]
            exact Or.inr (Or.inr (Or.inr rfl))
    | finished res =>
      simpa only [stepProc, hg] using h

theorem runSched_inv (token : String) (sched : List Nat) (s : SysState)
    (h : ReserveInv s) : ReserveInv (runSched token s sched) := by
  induction sched generalizing s with
  | nil => exact h
  | cons i rest ih => exact ih _ (stepProc_preserves token s i h)

theorem stepProc_length (token : String) (s : SysState) (i : Nat) :
    (stepProc token s i).procs.length = s.procs.length := by
  cases hg : s.procs[i]? with
  | none => simp [stepProc, hg]
  | some pr =>
    obtain ⟨inp, ph⟩ := pr
    cases ph with
    | putting =>
      cases hst : s.store with
      | none => simp [stepProc, hg, hst]
      | some r0 => simp [stepProc, hg, hst]
    | fetching => simp [stepProc, hg]
    | finished res => simp [stepProc, hg]

theorem runSched_length (token : String) (sched : List Nat) (s : SysState) :
    (runSched token s sched).procs.length = s.procs.length := by
  induction sched generalizing s with
  | nil => rfl
  | cons i rest ih =>
    calc (runSched token (stepProc token s i) rest).procs.length
        = (stepProc token s i).procs.length := ih _
      _ = s.procs.length := stepProc_length token s i

theorem results_reserved_count (r : IdempotencyRecord) :
    ∀ l : List (ReserveInput × Phase),
      (∀ p ∈ l, p.2 = Phase.finished winnerResult ∨
        p.2 = Phase.finished (loserResult r)) →
      ((l.filterMap phaseResult?).filter (fun res => res.reserved)).length =
        (l.filter isWinnerEntry).length := by
  intro l
  induction l with
  | nil => intro _; rfl
  | cons p ps ih =>
    intro hall
    have hrest := fun q hq => hall q (List.mem_cons_of_mem p hq)
    rcases hall p (List.mem_cons_self p ps) with hw | hl
    · simp [List.filterMap_cons, phaseResult?, hw, List.filter_cons,
        isWinnerEntry, winnerResult, ih hrest]
    · simp [List.filterMap_cons, phaseResult?, hl, List.filter_cons,
        isWinnerEntry, winnerResult, loserResult, ih hrest]

/-- C1: for any number of concurrent invocations of `reserve_job_slot` with
the same token and any interleaving of their store operations, once all have
finished exactly one reports `reserved = true` (with no `existing_job`) and
every other reports `reserved = false` with the same record — the one the
winner inserted — as `existing_job`. -/
theorem c1_reserve_exactly_once (token : String)
    (inputs : List ReserveInput) (sched : List Nat)
    (hne : inputs ≠ [])
    (hdone : ∀ p ∈ (runSched token (initState inputs) sched).procs,
      (Prod.snd p).isFinished = true) :
    ∃ r : IdempotencyRecord,
      (runSched token (initState inputs) sched).store = some r ∧
      ((finishedResults (runSched token (initState inputs) sched)).filter
        (fun res => res.reserved)).length = 1 ∧
      (∀ res ∈ finishedResults (runSched token (initState inputs) sched),
        res.reserved = true → res = winnerResult) ∧
      (∀ res ∈ finishedResults (runSched token (initState inputs) sched),
        res.reserved = false → res = loserResult r) := by
  have hinv := runSched_inv token sched (initState inputs)
    (initState_inv inputs)
  set s := runSched token (initState inputs) sched with hs
  have hlen : s.procs.length = inputs.length := by
    rw [hs, runSched_length]
    simp [initState]
  rcases hinv with ⟨_, hall⟩ | ⟨r, hr, hcount, hall⟩
  · exfalso
    have hpos : 0 < s.procs.length := by
      rw [hlen]
      exact List.length_pos.mpr hne
    obtain ⟨p, hp⟩ := List.exists_mem_of_length_pos hpos
    have h1 := hall p hp
    have h2 := hdone p hp
    rw [h1] at h2
    simp [Phase.isFinished] at h2
  · have hallfin : ∀ p ∈ s.procs, p.2 = Phase.finished winnerResult ∨
        p.2 = Phase.finished (loserResult r) := by
      intro p hp
      rcases hall p hp with h | h | h | h
      · have := hdone p hp; rw [h] at this; simp [Phase.isFinished] at this
      · have := hdone p hp; rw [h] at this; simp [Phase.isFinished] at this
      · exact Or.inl h
      · exact Or.inr h
    refine ⟨r, hr, ?_, ?_, ?_⟩
    · rw [show finishedResults s = s.procs.filterMap phaseResult? from rfl,
        results_reserved_count r s.procs hallfin]
      exact hcount
    · intro res hres htrue
      obtain ⟨p, hp, hpr⟩ := List.mem_filterMap.mp hres
      rcases hallfin p hp with h | h
      · simp only [phaseResult?, h, Option.some.injEq] at hpr
        exact hpr.symm
      · simp only [phaseResult?, h, Option.some.injEq] at hpr
        rw [← hpr] at htrue
        simp [loserResult] at htrue
    · intro res hres hfalse
      obtain ⟨p, hp, hpr⟩ := List.mem_filterMap.mp hres
      rcases hallfin p hp with h | h
      · simp only [phaseResult?, h, Option.some.injEq] at hpr
        rw [← hpr] at hfalse
        simp [winnerResult] at hfalse
      · simp only [phaseResult?, h, Option.some.injEq] at hpr
        exact hpr.symm

/-! ## Shape lemmas for the job builder -/

/-- The outputs with a video description (the video renditions). -/
def OutputGroup.videoRenditions (g : OutputGroup) : List Output :=
  g.outputs.filter (fun o => o.videoDescription.isSome)

/-- The audio-only outputs (the per-language audio renditions). -/
def OutputGroup.audioOnlyRenditions (g : OutputGroup) : List Output :=
  g.outputs.filter
    (fun o => o.videoDescription.isNone && !o.audioDescriptions.isEmpty)

/-- The outputs carrying caption descriptions (the caption renditions). -/
def OutputGroup.captionRenditions (g : OutputGroup) : List Output :=
  g.outputs.filter (fun o => !o.captionDescriptions.isEmpty)

theorem hlsVideoAudioDescription_ok (t : AudioTrack) (ad : AudioDescription)
    (h : hlsVideoAudioDescription t = .ok ad) :
    _get_iso_639_2_code t.language.value = .ok ad.languageCode := by
  unfold hlsVideoAudioDescription at h
  cases hc : _get_iso_639_2_code t.language.value with
  | error e => rw [hc] at h; cases h
  | ok code => rw [hc] at h; cases h; rfl

theorem _build_hls_video_output_ok (req : TranscodeJobRequest)
    (v : ABRVariant) (o : Output)
    (h : _build_hls_video_output req v = .ok o) :
    o.videoDescription = some
      { width := v.width, height := v.height,
        codecSettings := calculate_qvbr_settings v } ∧
    o.captionDescriptions = [] ∧
    (∀ ad ∈ o.audioDescriptions, ∃ t ∈ req.manifest.audio_tracks,
      _get_iso_639_2_code t.language.value = .ok ad.languageCode) := by
  unfold _build_hls_video_output at h
  cases hm : mapE hlsVideoAudioDescription req.manifest.audio_tracks with
  | error e => rw [hm] at h; cases h
  | ok auds =>
    rw [hm] at h
    cases h
    refine ⟨rfl, rfl, ?_⟩
    intro ad had
    obtain ⟨t, ht, hta⟩ := mapE_ok_mem _ _ _ hm ad had
    exact ⟨t, ht, hlsVideoAudioDescription_ok t ad hta⟩

theorem _build_hls_audio_output_ok (t : AudioTrack) (o : Output)
    (h : _build_hls_audio_output t = .ok o) :
    o.videoDescription = none ∧ o.captionDescriptions = [] ∧
    ∃ ad, o.audioDescriptions = [ad] ∧
      _get_iso_639_2_code t.language.value = .ok ad.languageCode := by
  unfold _build_hls_audio_output at h
  cases hc : _get_iso_639_2_code t.language.value with
  | error e => rw [hc] at h; cases h
  | ok code =>
    rw [hc] at h
    cases h
    exact ⟨rfl, rfl, _, rfl, rfl⟩

theorem _build_hls_caption_output_ok (t : SubtitleTrack) (o : Output)
    (h : _build_hls_caption_output t = .ok o) :
    o.videoDescription = none ∧ o.audioDescriptions = [] ∧
    ∃ cd, o.captionDescriptions = [cd] ∧
      _get_iso_639_2_code t.language.value = .ok cd.languageCode := by
  unfold _build_hls_caption_output at h
  cases hc : _get_iso_639_2_code t.language.value with
  | error e => rw [hc] at h; cases h
  | ok code =>
    rw [hc] at h
    cases h
    exact ⟨rfl, rfl, _, rfl, rfl⟩

theorem _build_dash_audio_output_ok (t : AudioTrack) (o : Output)
    (h : _build_dash_audio_output t = .ok o) :
    o.videoDescription = none ∧ o.captionDescriptions = [] ∧
    ∃ ad, o.audioDescriptions = [ad] ∧
      _get_iso_639_2_code t.language.value = .ok ad.languageCode := by
  unfold _build_dash_audio_output at h
  cases hc : _get_iso_639_2_code t.language.value with
  | error e => rw [hc] at h; cases h
  | ok code =>
    rw [hc] at h
    cases h
    exact ⟨rfl, rfl, _, rfl, rfl⟩

theorem hlsCaptionMapping_ok (it : Nat × SubtitleTrack)
    (mp : CaptionLanguageMapping) (h : hlsCaptionMapping it = .ok mp) :
    _get_iso_639_2_code it.2.language.value = .ok mp.languageCode := by
  unfold hlsCaptionMapping at h
  cases hc : _get_iso_639_2_code it.2.language.value with
  | error e => rw [hc] at h; cases h
  | ok code => rw [hc] at h; cases h; rfl

theorem snd_mem_of_mem_enumFrom {α : Type} :
    ∀ (l : List α) (n : Nat) (it : Nat × α),
      it ∈ l.enumFrom n → it.2 ∈ l := by
  intro l
  induction l with
  | nil => intro n it h; cases h
  | cons x xs ih =>
    intro n it h
    rcases List.mem_cons.mp h with rfl | h'
    · exact List.mem_cons_self x xs
    · exact List.mem_cons_of_mem x (ih (n + 1) it h')

theorem snd_mem_of_mem_enum {α : Type} (l : List α) (it : Nat × α)
    (h : it ∈ l.enum) : it.2 ∈ l :=
  snd_mem_of_mem_enumFrom l 0 it h

theorem _build_hls_output_group_ok (req : TranscodeJobRequest)
    (variants : List ABRVariant) (g : OutputGroup)
    (h : _build_hls_output_group req variants = .ok g) :
    g.name = "HLS" ∧
    (OutputGroup.videoRenditions g).length = variants.length ∧
    (OutputGroup.audioOnlyRenditions g).length =
      req.manifest.audio_tracks.length ∧
    (OutputGroup.captionRenditions g).length =
      req.manifest.subtitle_tracks.length ∧
    (∀ o ∈ g.outputs, ∀ vd, o.videoDescription = some vd →
      ∃ v ∈ variants, vd =
        { width := v.width, height := v.height,
          codecSettings := calculate_qvbr_settings v }) ∧
    (∀ o ∈ g.outputs, ∀ ad ∈ o.audioDescriptions,
      ∃ t ∈ req.manifest.audio_tracks,
        _get_iso_639_2_code t.language.value = .ok ad.languageCode) ∧
    (∀ o ∈ g.outputs, ∀ cd ∈ o.captionDescriptions,
      ∃ t ∈ req.manifest.subtitle_tracks,
        _get_iso_639_2_code t.language.value = .ok cd.languageCode) ∧
    (∀ mp ∈ g.captionLanguageMappings, ∃ t ∈ req.manifest.subtitle_tracks,
      _get_iso_639_2_code t.language.value = .ok mp.languageCode) := by
  unfold _build_hls_output_group at h
  cases h1 : mapE (_build_hls_video_output req) variants with
  | error e => rw [h1] at h; cases h
  | ok vids =>
  rw [h1] at h
  cases h2 : mapE _build_hls_audio_output req.manifest.audio_tracks with
  | error e => rw [h2] at h; cases h
  | ok auds =>
  rw [h2] at h
  cases h3 : mapE _build_hls_caption_output req.manifest.subtitle_tracks with
  | error e => rw [h3] at h; cases h
  | ok caps =>
  rw [h3] at h
  cases h4 : (if req.manifest.subtitle_tracks.isEmpty then Except.ok []
      else mapE hlsCaptionMapping req.manifest.subtitle_tracks.enum) with
  | error e => rw [h4] at h; cases h
  | ok mappings =>
  rw [h4] at h
  cases h
  have hvid := fun o ho => mapE_ok_mem _ _ _ h1 o ho
  have haud := fun o ho => mapE_ok_mem _ _ _ h2 o ho
  have hcap := fun o ho => mapE_ok_mem _ _ _ h3 o ho
  have hvid_some : ∀ o ∈ vids, o.videoDescription.isSome = true := by
    intro o ho
    obtain ⟨v, _, hok⟩ := hvid o ho
    rw [(_build_hls_video_output_ok req v o hok).1]
    rfl
  have haud_none : ∀ o ∈ auds, o.videoDescription = none := by
    intro o ho
    obtain ⟨t, _, hok⟩ := haud o ho
    exact (_build_hls_audio_output_ok t o hok).1
  have haud_one : ∀ o ∈ auds, o.audioDescriptions.isEmpty = false := by
    intro o ho
    obtain ⟨t, _, hok⟩ := haud o ho
    obtain ⟨ad, hads, _⟩ := (_build_hls_audio_output_ok t o hok).2.2
    rw [hads]
    rfl
  have haud_nocap : ∀ o ∈ auds, o.captionDescriptions = [] := by
    intro o ho
    obtain ⟨t, _, hok⟩ := haud o ho
    exact (_build_hls_audio_output_ok t o hok).2.1
  have hcap_none : ∀ o ∈ caps, o.videoDescription = none := by
    intro o ho
    obtain ⟨t, _, hok⟩ := hcap o ho
    exact (_build_hls_caption_output_ok t o hok).1
  have hcap_noaud : ∀ o ∈ caps, o.audioDescriptions = [] := by
    intro o ho
    obtain ⟨t, _, hok⟩ := hcap o ho
    exact (_build_hls_caption_output_ok t o hok).2.1
  have hcap_one : ∀ o ∈ caps, o.captionDescriptions.isEmpty = false := by
    intro o ho
    obtain ⟨t, _, hok⟩ := hcap o ho
    obtain ⟨cd, hcds, _⟩ := (_build_hls_caption_output_ok t o hok).2.2
    rw [hcds]
    rfl
  have hvid_nocap : ∀ o ∈ vids, o.captionDescriptions = [] := by
    intro o ho
    obtain ⟨v, _, hok⟩ := hvid o ho
    exact (_build_hls_video_output_ok req v o hok).2.1
  refine ⟨rfl, ?_, ?_, ?_, ?_, ?_, ?_, ?_⟩
  · simp only [OutputGroup.videoRenditions, List.filter_append]
    rw [List.filter_eq_self.mpr hvid_some,
      List.filter_eq_nil.mpr (fun o ho => by simp [haud_none o ho]),
      List.filter_eq_nil.mpr (fun o ho => by simp [hcap_none o ho])]
    simp [mapE_ok_length _ _ _ h1]
  · simp only [OutputGroup.audioOnlyRenditions, List.filter_append]
    rw [List.filter_eq_nil.mpr (fun o ho => by
        obtain ⟨v, _, hok⟩ := hvid o ho
        simp [(_build_hls_video_output_ok req v o hok).1]),
      List.filter_eq_self.mpr (fun o ho => by
        simp [haud_none o ho, haud_one o ho]),
      List.filter_eq_nil.mpr (fun o ho => by
        simp [hcap_noaud o ho])]
    simp [mapE_ok_length _ _ _ h2]
  · simp only [OutputGroup.captionRenditions, List.filter_append]
    rw [List.filter_eq_nil.mpr (fun o ho => by simp [hvid_nocap o ho]),
      List.filter_eq_nil.mpr (fun o ho => by simp [haud_nocap o ho]),
      List.filter_eq_self.mpr (fun o ho => by simp [hcap_one o ho])]
    simp [mapE_ok_length _ _ _ h3]
  · intro o ho vd hvd
    rcases List.mem_append.mp ho with ho' | ho'
    rcases List.mem_append.mp ho' with hov | hoa
    · obtain ⟨v, hv, hok⟩ := hvid o hov
      have := (_build_hls_video_output_ok req v o hok).1
      rw [this] at hvd
      exact ⟨v, hv, (Option.some.inj hvd).symm⟩
    · rw [haud_none o hoa] at hvd; cases hvd
    · rw [hcap_none o ho'] at hvd; cases hvd
  · intro o ho ad had
    rcases List.mem_append.mp ho with ho' | ho'
    rcases List.mem_append.mp ho' with hov | hoa
    · obtain ⟨v, _, hok⟩ := hvid o hov
      exact (_build_hls_video_output_ok req v o hok).2.2 ad had
    · obtain ⟨t, ht, hok⟩ := haud o hoa
      obtain ⟨ad0, hads, hcode⟩ := (_build_hls_audio_output_ok t o hok).2.2
      rw [hads] at had
      rcases List.mem_singleton.mp had with rfl
      exact ⟨t, ht, hcode⟩
    · rw [hcap_noaud o ho'] at had; cases had
  · intro o ho cd hcd
    rcases List.mem_append.mp ho with ho' | ho'
    rcases List.mem_append.mp ho' with hov | hoa
    · rw [hvid_nocap o hov] at hcd; cases hcd
    · rw [haud_nocap o hoa] at hcd; cases hcd
    · obtain ⟨t, ht, hok⟩ := hcap o ho'
      obtain ⟨cd0, hcds, hcode⟩ := (_build_hls_caption_output_ok t o hok).2.2
      rw [hcds] at hcd
      rcases List.mem_singleton.mp hcd with rfl
      exact ⟨t, ht, hcode⟩
  · intro mp hmp
    by_cases hemp : req.manifest.subtitle_tracks.isEmpty
    · rw [if_pos hemp] at h4
      cases h4
      cases hmp
    · rw [if_neg hemp] at h4
      obtain ⟨it, hit, hok⟩ := mapE_ok_mem _ _ _ h4 mp hmp
      exact ⟨it.2, snd_mem_of_mem_enum _ it hit, hlsCaptionMapping_ok it mp hok⟩

theorem _build_dash_video_output_fields (v : ABRVariant) :
    (_build_dash_video_output v).videoDescription = some
      { width := v.width, height := v.height,
        codecSettings := calculate_qvbr_settings v } ∧
    (_build_dash_video_output v).audioDescriptions = [] ∧
    (_build_dash_video_output v).captionDescriptions = [] :=
  ⟨rfl, rfl, rfl⟩

theorem _build_dash_output_group_ok (req : TranscodeJobRequest)
    (variants : List ABRVariant) (g : OutputGroup)
    (h : _build_dash_output_group req variants = .ok g) :
    g.name = "DASH" ∧
    (OutputGroup.videoRenditions g).length = variants.length ∧
    (OutputGroup.audioOnlyRenditions g).length =
      req.manifest.audio_tracks.length ∧
    (OutputGroup.captionRenditions g).length = 0 ∧
    (∀ o ∈ g.outputs, ∀ vd, o.videoDescription = some vd →
      ∃ v ∈ variants, vd =
        { width := v.width, height := v.height,
          codecSettings := calculate_qvbr_settings v }) ∧
    (∀ o ∈ g.outputs, ∀ ad ∈ o.audioDescriptions,
      ∃ t ∈ req.manifest.audio_tracks,
        _get_iso_639_2_code t.language.value = .ok ad.languageCode) ∧
    (∀ o ∈ g.outputs, o.captionDescriptions = []) ∧
    g.captionLanguageMappings = [] := by
  unfold _build_dash_output_group at h
  cases h2 : mapE _build_dash_audio_output req.manifest.audio_tracks with
  | error e => rw [h2] at h; cases h
  | ok auds =>
  rw [h2] at h
  cases h
  have haud := fun o ho => mapE_ok_mem _ _ _ h2 o ho
  have haud_none : ∀ o ∈ auds, o.videoDescription = none := by
    intro o ho
    obtain ⟨t, _, hok⟩ := haud o ho
    exact (_build_dash_audio_output_ok t o hok).1
  have haud_one : ∀ o ∈ auds, o.audioDescriptions.isEmpty = false := by
    intro o ho
    obtain ⟨t, _, hok⟩ := haud o ho
    obtain ⟨ad, hads, _⟩ := (_build_dash_audio_output_ok t o hok).2.2
    rw [hads]
    rfl
  have haud_nocap : ∀ o ∈ auds, o.captionDescriptions = [] := by
    intro o ho
    obtain ⟨t, _, hok⟩ := haud o ho
    exact (_build_dash_audio_output_ok t o hok).2.1
  refine ⟨rfl, ?_, ?_, ?_, ?_, ?_, ?_, rfl⟩
  · simp only [OutputGroup.videoRenditions, List.filter_append]
    rw [List.filter_eq_self.mpr (fun o ho => by
        obtain ⟨v, _, rfl⟩ := List.mem_map.mp ho
        simp [(_build_dash_video_output_fields v).1]),
      List.filter_eq_nil.mpr (fun o ho => by simp [haud_none o ho])]
    simp
  · simp only [OutputGroup.audioOnlyRenditions, List.filter_append]
    rw [List.filter_eq_nil.mpr (fun o ho => by
        obtain ⟨v, _, rfl⟩ := List.mem_map.mp ho
        simp [(_build_dash_video_output_fields v).1]),
      List.filter_eq_self.mpr (fun o ho => by
        simp [haud_none o ho, haud_one o ho])]
    simp [mapE_ok_length _ _ _ h2]
  · simp only [OutputGroup.captionRenditions, List.filter_append]
    rw [List.filter_eq_nil.mpr (fun o ho => by
        obtain ⟨v, _, rfl⟩ := List.mem_map.mp ho
        simp [(_build_dash_video_output_fields v).2.2]),
      List.filter_eq_nil.mpr (fun o ho => by simp [haud_nocap o ho])]
    rfl
  · intro o ho vd hvd
    rcases List.mem_append.mp ho with ho' | ho'
    · obtain ⟨v, hv, rfl⟩ := List.mem_map.mp ho'
      rw [(_build_dash_video_output_fields v).1] at hvd
      exact ⟨v, hv, (Option.some.inj hvd).symm⟩
    · rw [haud_none o ho'] at hvd; cases hvd
  · intro o ho ad had
    rcases List.mem_append.mp ho with ho' | ho'
    · obtain ⟨v, _, rfl⟩ := List.mem_map.mp ho'
      rw [(_build_dash_video_output_fields v).2.1] at had
      cases had
    · obtain ⟨t, ht, hok⟩ := haud o ho'
      obtain ⟨ad0, hads, hcode⟩ := (_build_dash_audio_output_ok t o hok).2.2
      rw [hads] at had
      rcases List.mem_singleton.mp had with rfl
      exact ⟨t, ht, hcode⟩
  · intro o ho
    rcases List.mem_append.mp ho with ho' | ho'
    · obtain ⟨v, _, rfl⟩ := List.mem_map.mp ho'
      exact (_build_dash_video_output_fields v).2.2
    · exact haud_nocap o ho'

/-- Every group in a successfully built specification comes from exactly one
of the two group builders, with its guard condition true; the input
descriptor is `_build_input`. -/
theorem build_mediaconvert_job_ok (req : TranscodeJobRequest)
    (spec : JobSettings) (h : build_mediaconvert_job req = .ok spec) :
    spec.inputs = [_build_input req] ∧
    ∀ g ∈ spec.outputGroups,
      ((req.output_hls && !(h264Variants req).isEmpty) = true ∧
        _build_hls_output_group req (h264Variants req) = .ok g) ∨
      ((req.output_dash &&
          !(h264Variants req ++ h265Variants req).isEmpty) = true ∧
        _build_dash_output_group req
          (h264Variants req ++ h265Variants req) = .ok g) := by
  simp only [build_mediaconvert_job] at h
  by_cases hc1 : (req.output_hls && !(h264Variants req).isEmpty) = true
  · rw [if_pos hc1] at h
    cases hb1 : _build_hls_output_group req (h264Variants req) with
    | error e => rw [hb1] at h; cases h
    | ok g1 =>
      rw [hb1] at h
      by_cases hc2 : (req.output_dash &&
          !(h264Variants req ++ h265Variants req).isEmpty) = true
      · rw [if_pos hc2] at h
        cases hb2 : _build_dash_output_group req
            (h264Variants req ++ h265Variants req) with
        | error e => rw [hb2] at h; cases h
        | ok g2 =>
          rw [hb2] at h
          cases h
          refine ⟨rfl, ?_⟩
          intro g hg
          rcases List.mem_append.mp hg with hg' | hg'
          · rcases List.mem_singleton.mp hg' with rfl
            exact Or.inl ⟨hc1, rfl⟩
          · rcases List.mem_singleton.mp hg' with rfl
            exact Or.inr ⟨hc2, rfl⟩
      · rw [if_neg hc2] at h
        cases h
        refine ⟨rfl, ?_⟩
        intro g hg
        rcases List.mem_append.mp hg with hg' | hg'
        · rcases List.mem_singleton.mp hg' with rfl
          exact Or.inl ⟨hc1, rfl⟩
        · cases hg'
  · rw [if_neg hc1] at h
    by_cases hc2 : (req.output_dash &&
        !(h264Variants req ++ h265Variants req).isEmpty) = true
    · rw [if_pos hc2] at h
      cases hb2 : _build_dash_output_group req
          (h264Variants req ++ h265Variants req) with
      | error e => rw [hb2] at h; cases h
      | ok g2 =>
        rw [hb2] at h
        cases h
        refine ⟨rfl, ?_⟩
        intro g hg
        rcases List.mem_append.mp hg with hg' | hg'
        · cases hg'
        · rcases List.mem_singleton.mp hg' with rfl
          exact Or.inr ⟨hc2, rfl⟩
    · rw [if_neg hc2] at h
      cases h
      refine ⟨rfl, ?_⟩
      intro g hg
      rcases List.mem_append.mp hg with hg' | hg' <;> cases hg'

/-- For an H.264-filtered variant the computed codec settings carry the
`H_264` discriminator. -/
theorem qvbr_h264_codec (v : ABRVariant) (hc : v.codec = VideoCodec.h264) :
    (calculate_qvbr_settings v).codec = "H_264" := by
  simp [calculate_qvbr_settings, hc]

/-- C5: the HLS output group never contains an H.265 video rendition, every
emitted output group has at least one video rendition, and with no H.264
variant no HLS group is emitted even when HLS output is requested. -/
theorem c5_hls_group_exclusions (request : TranscodeJobRequest)
    (spec : JobSettings) (h : build_mediaconvert_job request = .ok spec) :
    (∀ g ∈ spec.outputGroups, g.name = "HLS" →
      ∀ o ∈ g.outputs, ∀ vd, o.videoDescription = some vd →
        vd.codecSettings.codec ≠ "H_265") ∧
    (∀ g ∈ spec.outputGroups, 1 ≤ (OutputGroup.videoRenditions g).length) ∧
    ((h264Variants request).isEmpty = true →
      ∀ g ∈ spec.outputGroups, g.name ≠ "HLS") := by
  obtain ⟨_, hgroups⟩ := build_mediaconvert_job_ok request spec h
  refine ⟨?_, ?_, ?_⟩
  · intro g hg hname o ho vd hvd
    rcases hgroups g hg with ⟨_, hb⟩ | ⟨_, hb⟩
    · obtain ⟨v, hv, rfl⟩ :=
        (_build_hls_output_group_ok request _ g hb).2.2.2.2.1 o ho vd hvd
      obtain ⟨_, hd⟩ := List.mem_filter.mp hv
      rw [qvbr_h264_codec v (of_decide_eq_true hd)]
      decide
    · have hds := (_build_dash_output_group_ok request _ g hb).1
      exact absurd (hds.symm.trans hname) (by decide)
  · intro g hg
    rcases hgroups g hg with ⟨hcond, hb⟩ | ⟨hcond, hb⟩
    · rw [(_build_hls_output_group_ok request _ g hb).2.1]
      have h2 : (h264Variants request).isEmpty = false := by
        cases hemp : (h264Variants request).isEmpty
        · rfl
        · rw [hemp] at hcond
          simp at hcond
      exact List.length_pos.mpr (List.isEmpty_eq_false.mp h2)
    · rw [(_build_dash_output_group_ok request _ g hb).2.1]
      have h2 : (h264Variants request ++ h265Variants request).isEmpty
          = false := by
        cases hemp : (h264Variants request ++ h265Variants request).isEmpty
        · rfl
        · rw [hemp] at hcond
          simp at hcond
      exact List.length_pos.mpr (List.isEmpty_eq_false.mp h2)
  · intro hempty g hg hname
    rcases hgroups g hg with ⟨hcond, _⟩ | ⟨_, hb⟩
    · rw [hempty] at hcond
      simp at hcond
    · have hds := (_build_dash_output_group_ok request _ g hb).1
      exact absurd (hds.symm.trans hname) (by decide)

/-- Every variant is H.264 or H.265, so the two codec filters partition the
request's variant list. -/
theorem h264_h265_partition_length (l : List ABRVariant) :
    (l.filter (fun v => decide (v.codec = VideoCodec.h264))).length +
      (l.filter (fun v => decide (v.codec = VideoCodec.h265))).length =
      l.length := by
  induction l with
  | nil => rfl
  | cons v vs ih =>
    cases hc : v.codec <;> simp [List.filter_cons, hc, ← ih] <;> omega

/-- C6 as amended: each group has one video rendition per variant routed to
it (the H.264 subset for HLS, the full set for DASH) and one audio-only
rendition per audio track; the HLS group has one caption rendition per
subtitle track, while the DASH group contains no caption renditions at
all. -/
theorem c6_rendition_counts_amended (request : TranscodeJobRequest)
    (spec : JobSettings) (h : build_mediaconvert_job request = .ok spec) :
    ∀ g ∈ spec.outputGroups,
      (g.name = "HLS" →
        (OutputGroup.videoRenditions g).length = (h264Variants request).length ∧
        (OutputGroup.audioOnlyRenditions g).length =
          request.manifest.audio_tracks.length ∧
        (OutputGroup.captionRenditions g).length =
          request.manifest.subtitle_tracks.length) ∧
      (g.name = "DASH" →
        (OutputGroup.videoRenditions g).length =
          request.abr_variants.length ∧
        (OutputGroup.audioOnlyRenditions g).length =
          request.manifest.audio_tracks.length ∧
        (OutputGroup.captionRenditions g).length = 0) := by
  obtain ⟨_, hgroups⟩ := build_mediaconvert_job_ok request spec h
  intro g hg
  rcases hgroups g hg with ⟨_, hb⟩ | ⟨_, hb⟩
  · have hs := _build_hls_output_group_ok request _ g hb
    constructor
    · intro _
      exact ⟨hs.2.1, hs.2.2.1, hs.2.2.2.1⟩
    · intro hname
      exact absurd (hs.1.symm.trans hname) (by decide)
  · have hs := _build_dash_output_group_ok request _ g hb
    constructor
    · intro hname
      exact absurd (hs.1.symm.trans hname) (by decide)
    · intro _
      refine ⟨?_, hs.2.2.1, hs.2.2.2.1⟩
      rw [hs.2.1, List.length_append]
      exact h264_h265_partition_length request.abr_variants

/-! ## Concrete example fixtures (used by the counterexamples and
witnesses) -/

def exMezzanine : MezzanineInfo :=
  { file_path := "anime/ep1.mov"
    checksum_md5 := "0123456789abcdef0123456789abcdef"
    file_size_bytes := 5000000000
    resolution_width := 1920
    resolution_height := 1080 }

def exTrackJa : AudioTrack :=
  { language := .ja, label := "Japanese", is_default := true,
    channels := 2, track_index := 1 }

def exTrackEn : AudioTrack :=
  { language := .en, label := "English Dub", is_default := false,
    channels := 2, track_index := 2 }

def exSubEn : SubtitleTrack :=
  { language := .en, label := "English", file_path := "subs/ep1.en.vtt",
    is_default := true, is_forced := false, format := .WebVTT }

def exManifest : TranscodeManifest :=
  { manifest_id := "series-s01e001"
    mezzanine := exMezzanine
    audio_tracks := [exTrackJa, exTrackEn]
    subtitle_tracks := [exSubEn]
    priority := 0
    callback_url := none }

def exRequest : TranscodeJobRequest :=
  { manifest := exManifest
    input_s3_uri := "s3://mezz-bucket/anime/ep1.mov"
    output_s3_path := "s3://out-bucket/anime/ep1"
    abr_variants := ABR_LADDER_H264 ++ ABR_LADDER_H265
    output_hls := true
    output_dash := true }

/-- C6 counterexample: on a pydantic-valid request with one subtitle track,
the DASH output group of the built specification contains zero caption
renditions, refuting "every output group … contains one caption rendition
per subtitle track". -/
theorem c6_dash_caption_counterexample :
    exManifest.pydantic_valid ∧
    exRequest.manifest.subtitle_tracks.length = 1 ∧
    ∃ spec, build_mediaconvert_job exRequest = .ok spec ∧
      ∃ g, g ∈ spec.outputGroups ∧ g.name = "DASH" ∧
        (OutputGroup.captionRenditions g).length = 0 := by
  refine ⟨by decide, rfl, ?_⟩
  refine ⟨_, rfl, ?_⟩
  decide

/-- Witness for the amended C6 at the example request. -/
theorem c6_rendition_counts_amended_witness :
    ∃ spec, build_mediaconvert_job exRequest = .ok spec ∧
      ∀ g ∈ spec.outputGroups,
        (g.name = "HLS" →
          (OutputGroup.videoRenditions g).length =
            (h264Variants exRequest).length ∧
          (OutputGroup.audioOnlyRenditions g).length =
            exRequest.manifest.audio_tracks.length ∧
          (OutputGroup.captionRenditions g).length =
            exRequest.manifest.subtitle_tracks.length) ∧
        (g.name = "DASH" →
          (OutputGroup.videoRenditions g).length =
            exRequest.abr_variants.length ∧
          (OutputGroup.audioOnlyRenditions g).length =
            exRequest.manifest.audio_tracks.length ∧
          (OutputGroup.captionRenditions g).length = 0) :=
  ⟨_, rfl, c6_rendition_counts_amended exRequest _ rfl⟩

/-- Witness for C5 at the example request. -/
theorem c5_hls_group_exclusions_witness :
    ∃ spec, build_mediaconvert_job exRequest = .ok spec ∧
      ((∀ g ∈ spec.outputGroups, g.name = "HLS" →
        ∀ o ∈ g.outputs, ∀ vd, o.videoDescription = some vd →
          vd.codecSettings.codec ≠ "H_265") ∧
      (∀ g ∈ spec.outputGroups, 1 ≤ (OutputGroup.videoRenditions g).length) ∧
      ((h264Variants exRequest).isEmpty = true →
        ∀ g ∈ spec.outputGroups, g.name ≠ "HLS")) :=
  ⟨_, rfl, c5_hls_group_exclusions exRequest _ rfl⟩

/-! ## Selector-dictionary lemmas (C7) -/

theorem dictInsert_mem' {β : Type} {kv : String × β} {k : String} {v : β}
    {d : List (String × β)} (h : kv ∈ dictInsert k v d) :
    kv ∈ d ∨ kv = (k, v) := by
  unfold dictInsert at h
  by_cases hany : d.any (fun p => decide (p.1 = k)) = true
  · rw [if_pos hany] at h
    obtain ⟨p, hp, heq⟩ := List.mem_map.mp h
    by_cases hpk : p.1 = k
    · rw [if_pos hpk] at heq
      exact Or.inr heq.symm
    · rw [if_neg hpk] at heq
      exact Or.inl (heq ▸ hp)
  · rw [if_neg hany] at h
    rcases List.mem_append.mp h with h' | h'
    · exact Or.inl h'
    · exact Or.inr (List.mem_singleton.mp h')

theorem dictInsert_length_of_not_mem {β : Type} (k : String) (v : β)
    (d : List (String × β)) (h : ∀ p ∈ d, p.1 ≠ k) :
    (dictInsert k v d).length = d.length + 1 := by
  unfold dictInsert
  have hany : d.any (fun p => decide (p.1 = k)) = false := by
    rw [List.any_eq_false]
    intro p hp
    simpa using h p hp
  rw [if_neg (by simp [hany])]
  simp

theorem selector_foldl_length {τ β : Type} (key : τ → String) (val : τ → β) :
    ∀ (ts : List τ) (d : List (String × β)),
      (ts.map key).Nodup →
      (∀ t ∈ ts, ∀ p ∈ d, p.1 ≠ key t) →
      (ts.foldl (fun d' t => dictInsert (key t) (val t) d') d).length =
        d.length + ts.length := by
  intro ts
  induction ts with
  | nil => intro d _ _; rfl
  | cons t ts' ih =>
    intro d hnodup hdis
    simp only [List.foldl_cons]
    have hd1 : ∀ p ∈ d, p.1 ≠ key t :=
      hdis t (List.mem_cons_self t ts')
    rw [ih (dictInsert (key t) (val t) d)
        (List.nodup_cons.mp hnodup).2
        ?_]
    · rw [dictInsert_length_of_not_mem _ _ _ hd1, List.length_cons]
      omega
    · intro t' ht' p hp
      rcases dictInsert_mem' hp with hp' | rfl
      · exact hdis t' (List.mem_cons_of_mem t ht') p hp'
      · intro hkk
        have hmm : key t' ∈ ts'.map key := List.mem_map_of_mem key ht'
        have hhead := (List.nodup_cons.mp hnodup).1
        rw [← hkk] at hmm
        exact hhead hmm

theorem selector_foldl_keys {τ β : Type} (key : τ → String) (val : τ → β) :
    ∀ (ts : List τ) (d : List (String × β)) (kv : String × β),
      kv ∈ ts.foldl (fun d' t => dictInsert (key t) (val t) d') d →
      kv ∈ d ∨ ∃ t ∈ ts, kv.1 = key t := by
  intro ts
  induction ts with
  | nil => intro d kv h; exact Or.inl h
  | cons t ts' ih =>
    intro d kv h
    simp only [List.foldl_cons] at h
    rcases ih (dictInsert (key t) (val t) d) kv h with h' | ⟨t', ht', hk⟩
    · rcases dictInsert_mem' h' with h'' | rfl
      · exact Or.inl h''
      · exact Or.inr ⟨t, List.mem_cons_self t ts', rfl⟩
    · exact Or.inr ⟨t', List.mem_cons_of_mem t ht', hk⟩

/-- Appending a fixed left part is injective on strings. -/
theorem string_append_left_injective (pre : String) :
    Function.Injective (fun s : String => pre ++ s) := by
  intro a b h
  apply String.ext
  have hd := congrArg String.data h
  simp only [String.data_append] at hd
  exact List.append_cancel_left hd

theorem audioLanguage_value_injective :
    Function.Injective AudioLanguage.value := by
  intro a b h
  cases a <;> cases b <;> simp [AudioLanguage.value] at h ⊢

theorem subtitleLanguage_value_injective :
    Function.Injective SubtitleLanguage.value := by
  intro a b h
  cases a <;> cases b <;> simp [SubtitleLanguage.value] at h ⊢

/-- C7 as amended: the input descriptor has one audio selector per distinct
audio-track language — equal to the number of audio tracks whenever the
track languages are pairwise distinct (duplicate-language tracks collapse
into one selector) — each named `Audio_<language>`; likewise one caption
selector per distinct subtitle-track language, named `Caption_<language>`. -/
theorem c7_selector_counts_amended (request : TranscodeJobRequest) :
    (∀ spec, build_mediaconvert_job request = .ok spec →
      spec.inputs = [_build_input request]) ∧
    ((request.manifest.audio_tracks.map (fun t => t.language)).Nodup →
      (_build_input request).audioSelectors.length =
        request.manifest.audio_tracks.length) ∧
    (∀ kv ∈ (_build_input request).audioSelectors,
      ∃ t ∈ request.manifest.audio_tracks,
        kv.1 = "Audio_" ++ t.language.value) ∧
    ((request.manifest.subtitle_tracks.map (fun t => t.language)).Nodup →
      (_build_input request).captionSelectors.length =
        request.manifest.subtitle_tracks.length) ∧
    (∀ kv ∈ (_build_input request).captionSelectors,
      ∃ t ∈ request.manifest.subtitle_tracks,
        kv.1 = "Caption_" ++ t.language.value) := by
  refine ⟨?_, ?_, ?_, ?_, ?_⟩
  · intro spec h
    exact (build_mediaconvert_job_ok request spec h).1
  · intro hnodup
    have hkeys : (request.manifest.audio_tracks.map
        (fun t => "Audio_" ++ t.language.value)).Nodup := by
      have : (request.manifest.audio_tracks.map
          (fun t => "Audio_" ++ t.language.value)) =
          ((request.manifest.audio_tracks.map (fun t => t.language)).map
            (fun l => "Audio_" ++ l.value)) := by
        simp [List.map_map, Function.comp]
      rw [this]
      exact hnodup.map
        ((string_append_left_injective "Audio_").comp
          audioLanguage_value_injective)
    have := selector_foldl_length
      (fun t : AudioTrack => "Audio_" ++ t.language.value)
      (fun t => { defaultSelection :=
                    if t.is_default then "DEFAULT" else "NOT_DEFAULT"
                  selectorType := "TRACK"
                  tracks := [t.track_index] : AudioSelector })
      request.manifest.audio_tracks [] hkeys (by intro _ _ p hp; cases hp)
    simpa [_build_input] using this
  · intro kv hkv
    have := selector_foldl_keys
      (fun t : AudioTrack => "Audio_" ++ t.language.value)
      (fun t => { defaultSelection :=
                    if t.is_default then "DEFAULT" else "NOT_DEFAULT"
                  selectorType := "TRACK"
                  tracks := [t.track_index] : AudioSelector })
      request.manifest.audio_tracks [] kv (by simpa [_build_input] using hkv)
    rcases this with h' | h'
    · cases h'
    · exact h'
  · intro hnodup
    have hkeys : (request.manifest.subtitle_tracks.map
        (fun t => "Caption_" ++ t.language.value)).Nodup := by
      have : (request.manifest.subtitle_tracks.map
          (fun t => "Caption_" ++ t.language.value)) =
          ((request.manifest.subtitle_tracks.map (fun t => t.language)).map
            (fun l => "Caption_" ++ l.value)) := by
        simp [List.map_map, Function.comp]
      rw [this]
      exact hnodup.map
        ((string_append_left_injective "Caption_").comp
          subtitleLanguage_value_injective)
    have := selector_foldl_length
      (fun t : SubtitleTrack => "Caption_" ++ t.language.value)
      (fun t => { sourceType :=
                    (formatToSourceType.lookup t.format.value).getD "WEBVTT"
                  sourceFile := rsplitBase request.input_s3_uri ++ "/" ++
                    t.file_path : CaptionSelector })
      request.manifest.subtitle_tracks [] hkeys (by intro _ _ p hp; cases hp)
    simpa [_build_input] using this
  · intro kv hkv
    have := selector_foldl_keys
      (fun t : SubtitleTrack => "Caption_" ++ t.language.value)
      (fun t => { sourceType :=
                    (formatToSourceType.lookup t.format.value).getD "WEBVTT"
                  sourceFile := rsplitBase request.input_s3_uri ++ "/" ++
                    t.file_path : CaptionSelector })
      request.manifest.subtitle_tracks [] kv (by simpa [_build_input] using hkv)
    rcases this with h' | h'
    · cases h'
    · exact h'

def exDupTrackEn1 : AudioTrack :=
  { language := .en, label := "English", is_default := true,
    channels := 2, track_index := 1 }

def exDupTrackEn2 : AudioTrack :=
  { language := .en, label := "English Commentary", is_default := false,
    channels := 2, track_index := 3 }

def exDupManifest : TranscodeManifest :=
  { manifest_id := "series-s01e002"
    mezzanine := exMezzanine
    audio_tracks := [exDupTrackEn1, exDupTrackEn2]
    subtitle_tracks := []
    priority := 0
    callback_url := none }

def exDupRequest : TranscodeJobRequest :=
  { manifest := exDupManifest
    input_s3_uri := "s3://mezz-bucket/anime/ep2.mov"
    output_s3_path := "s3://out-bucket/anime/ep2"
    abr_variants := ABR_LADDER_H264
    output_hls := true
    output_dash := true }

/-- C7 counterexample: a pydantic-valid manifest with two audio tracks of
the same language (allowed — the upstream validator merely warns) yields a
single `Audio_en` selector, so the number of audio selectors does not equal
the number of audio tracks. -/
theorem c7_duplicate_language_counterexample :
    exDupManifest.pydantic_valid ∧
    exDupManifest.audio_tracks.length = 2 ∧
    (_build_input exDupRequest).audioSelectors.length = 1 ∧
    (_build_input exDupRequest).audioSelectors.length ≠
      exDupRequest.manifest.audio_tracks.length ∧
    ∃ spec, build_mediaconvert_job exDupRequest = .ok spec ∧
      spec.inputs = [_build_input exDupRequest] := by
  refine ⟨by decide, rfl, by decide, by decide, ⟨_, rfl, rfl⟩⟩

/-- Witness for the amended C7 at the example request (distinct languages). -/
theorem c7_selector_counts_amended_witness :
    ((exRequest.manifest.audio_tracks.map (fun t => t.language)).Nodup ∧
      (_build_input exRequest).audioSelectors.length =
        exRequest.manifest.audio_tracks.length) ∧
    ((exRequest.manifest.subtitle_tracks.map (fun t => t.language)).Nodup ∧
      (_build_input exRequest).captionSelectors.length =
        exRequest.manifest.subtitle_tracks.length) ∧
    ∃ spec, build_mediaconvert_job exRequest = .ok spec ∧
      spec.inputs = [_build_input exRequest] :=
  ⟨⟨by decide, (c7_selector_counts_amended exRequest).2.1 (by decide)⟩,
   ⟨by decide, (c7_selector_counts_amended exRequest).2.2.2.1 (by decide)⟩,
   ⟨_, rfl, (c7_selector_counts_amended exRequest).1 _ rfl⟩⟩

/-! ## Language-code translation (C8) -/

/-- C8: every `LanguageCode` emitted in the audio and caption renditions
(and in the HLS caption language mappings) of a successfully built
specification is the table translation of some track language of the
manifest; `.ok` results of `_get_iso_639_2_code` are exactly the fixed
table's entries for the base code; and a base code outside the table makes
`_get_iso_639_2_code` raise, with a message naming the offending value —
and since the whole build is an `Except`, a raise yields no partial
specification. -/
theorem c8_language_codes_from_table (request : TranscodeJobRequest)
    (spec : JobSettings) (h : build_mediaconvert_job request = .ok spec) :
    (∀ g ∈ spec.outputGroups, ∀ o ∈ g.outputs,
      (∀ ad ∈ o.audioDescriptions, ∃ t ∈ request.manifest.audio_tracks,
        _get_iso_639_2_code t.language.value = .ok ad.languageCode) ∧
      (∀ cd ∈ o.captionDescriptions, ∃ t ∈ request.manifest.subtitle_tracks,
        _get_iso_639_2_code t.language.value = .ok cd.languageCode)) ∧
    (∀ g ∈ spec.outputGroups, ∀ mp ∈ g.captionLanguageMappings,
      ∃ t ∈ request.manifest.subtitle_tracks,
        _get_iso_639_2_code t.language.value = .ok mp.languageCode) ∧
    (∀ (s code3 : String), _get_iso_639_2_code s = .ok code3 →
      ISO_639_1_TO_639_2.lookup (isoBaseCode s) = some code3) ∧
    (∀ s : String, ISO_639_1_TO_639_2.lookup (isoBaseCode s) = none →
      _get_iso_639_2_code s = .error ("Unsupported language code '" ++ s ++
        "'. Supported codes: " ++ String.intercalate ", "
          ((ISO_639_1_TO_639_2.map Prod.fst).mergeSort pyStrLe))) := by
  obtain ⟨_, hgroups⟩ := build_mediaconvert_job_ok request spec h
  refine ⟨?_, ?_, ?_, ?_⟩
  · intro g hg o ho
    rcases hgroups g hg with ⟨_, hb⟩ | ⟨_, hb⟩
    · have hs := _build_hls_output_group_ok request _ g hb
      exact ⟨hs.2.2.2.2.2.1 o ho, hs.2.2.2.2.2.2.1 o ho⟩
    · have hs := _build_dash_output_group_ok request _ g hb
      refine ⟨hs.2.2.2.2.2.1 o ho, ?_⟩
      intro cd hcd
      rw [hs.2.2.2.2.2.2.1 o ho] at hcd
      cases hcd
  · intro g hg mp hmp
    rcases hgroups g hg with ⟨_, hb⟩ | ⟨_, hb⟩
    · exact (_build_hls_output_group_ok request _ g hb).2.2.2.2.2.2.2 mp hmp
    · rw [(_build_dash_output_group_ok request _ g hb).2.2.2.2.2.2.2] at hmp
      cases hmp
  · intro s code3 hs
    unfold _get_iso_639_2_code at hs
    cases hl : ISO_639_1_TO_639_2.lookup (isoBaseCode s) with
    | none => rw [hl] at hs; cases hs
    | some c => rw [hl] at hs; cases hs; rfl
  · intro s hl
    unfold _get_iso_639_2_code
    rw [hl]

/-- Witness for C8 at the example request, plus a concrete unsupported
code. -/
theorem c8_language_codes_from_table_witness :
    (∃ spec, build_mediaconvert_job exRequest = .ok spec ∧
      ∀ g ∈ spec.outputGroups, ∀ o ∈ g.outputs,
        ∀ ad ∈ o.audioDescriptions, ∃ t ∈ exRequest.manifest.audio_tracks,
          _get_iso_639_2_code t.language.value = .ok ad.languageCode) ∧
    (ISO_639_1_TO_639_2.lookup (isoBaseCode "xx") = none ∧
      _get_iso_639_2_code "xx" =
        .error ("Unsupported language code '" ++ "xx" ++
          "'. Supported codes: " ++ String.intercalate ", "
            ((ISO_639_1_TO_639_2.map Prod.fst).mergeSort pyStrLe))) :=
  ⟨⟨_, rfl, fun g hg o ho =>
      ((c8_language_codes_from_table exRequest _ rfl).1 g hg o ho).1⟩,
   by decide,
   (c8_language_codes_from_table exRequest _ rfl).2.2.2 "xx" (by decide)⟩

/-- Witness for C1: two concurrent reservations under the schedule where
invocation 0 puts first, then invocation 1 puts (losing) and fetches. -/
theorem c1_reserve_exactly_once_witness :
    ([⟨"series-s01e001", "s3://out-bucket/anime/ep1", "2026-02-01T10:00:00", 1000⟩,
      ⟨"series-s01e001", "s3://out-bucket/anime/ep1", "2026-02-01T10:00:01", 1001⟩]
        : List ReserveInput) ≠ [] ∧
    (∀ p ∈ (runSched "4f2a" (initState
        [⟨"series-s01e001", "s3://out-bucket/anime/ep1", "2026-02-01T10:00:00", 1000⟩,
         ⟨"series-s01e001", "s3://out-bucket/anime/ep1", "2026-02-01T10:00:01", 1001⟩])
        [0, 1, 1]).procs, (Prod.snd p).isFinished = true) ∧
    ∃ r : IdempotencyRecord,
      (runSched "4f2a" (initState
        [⟨"series-s01e001", "s3://out-bucket/anime/ep1", "2026-02-01T10:00:00", 1000⟩,
         ⟨"series-s01e001", "s3://out-bucket/anime/ep1", "2026-02-01T10:00:01", 1001⟩])
        [0, 1, 1]).store = some r ∧
      ((finishedResults (runSched "4f2a" (initState
        [⟨"series-s01e001", "s3://out-bucket/anime/ep1", "2026-02-01T10:00:00", 1000⟩,
         ⟨"series-s01e001", "s3://out-bucket/anime/ep1", "2026-02-01T10:00:01", 1001⟩])
        [0, 1, 1])).filter (fun res => res.reserved)).length = 1 ∧
      (∀ res ∈ finishedResults (runSched "4f2a" (initState
        [⟨"series-s01e001", "s3://out-bucket/anime/ep1", "2026-02-01T10:00:00", 1000⟩,
         ⟨"series-s01e001", "s3://out-bucket/anime/ep1", "2026-02-01T10:00:01", 1001⟩])
        [0, 1, 1]), res.reserved = true → res = winnerResult) ∧
      (∀ res ∈ finishedResults (runSched "4f2a" (initState
        [⟨"series-s01e001", "s3://out-bucket/anime/ep1", "2026-02-01T10:00:00", 1000⟩,
         ⟨"series-s01e001", "s3://out-bucket/anime/ep1", "2026-02-01T10:00:01", 1001⟩])
        [0, 1, 1]), res.reserved = false → res = loserResult r) :=
  ⟨by decide, by decide,
    c1_reserve_exactly_once "4f2a"
      [⟨"series-s01e001", "s3://out-bucket/anime/ep1", "2026-02-01T10:00:00", 1000⟩,
       ⟨"series-s01e001", "s3://out-bucket/anime/ep1", "2026-02-01T10:00:01", 1001⟩]
      [0, 1, 1] (by decide) (by decide)⟩

end Anime
